import Mathlib

/-!
# Databricks credential client of the dbt Cloud provider

A shallow embedding of `pkg/dbt_cloud/databricks_credential.go`: the credential
data model with its JSON struct tags, the payload that
`CreateDatabricksCredential` builds, and the four operations
(`GetDatabricksCredential`, `CreateDatabricksCredential`,
`UpdateDatabricksCredential`, `DeleteDatabricksCredential`) over the
collaborators `http.NewRequest`, `Client.doRequest` and `encoding/json`.

Modelling conventions.

* A Go `int` is an `Int`; `isInt64` is its range.
* A Go `string` is a `GoString`, a sequence of bytes that need not be valid
  UTF-8; `json.Marshal` writes the text `GoString.toText` of it, in which every
  byte outside a well-formed sequence is U+FFFD, and `json.Unmarshal` stores
  the UTF-8 encoding `GoString.ofText` of a JSON string.
* A Go `map[string]T` is `Option (List (GoString × T))`: `none` is the nil map, and
  the entries of a non-nil map are kept in increasing key order, the order in
  which `json.Marshal` writes them.
* A Go `[]string` is `Option (List GoString)`, `none` being the nil slice.
* A `*int` is an `Option Int`, `none` being the nil pointer.
* JSON text is identified with its syntax tree `Json`; a byte string that the
  scanner of `json.Unmarshal` rejects, because it is not JSON text or is nested
  deeper than `maxNestingDepth`, is `Body.malformed`.
* `json.Unmarshal` stores into an existing value, so every decoder takes the
  current value of its target. It reports the first type mismatch it met; the
  operations discard the decoded value in that case, so decoding stops there.
-/

namespace DbtCloud

/-! ## Numbers -/

/-- Range of the Go type `int` (64 bits). -/
def isInt64 (n : Int) : Bool :=
  decide (-(2 ^ 63 : Int) ≤ n) && decide (n < (2 ^ 63 : Int))

/-- A Go `float64`: a finite value `± mant × 2 ^ exp`, an infinity, or NaN. -/
inductive Float64 where
  | finite (neg : Bool) (mant : Nat) (exp : Int)
  | inf (neg : Bool)
  | nan
  deriving DecidableEq

/-- The finite values as the 64 bits hold them: `mant < 2 ^ 53` and
`-1074 ≤ exp ≤ 971`, with `2 ^ 52 ≤ mant` unless `exp = -1074`. Every
`float64` has one such form. -/
def Float64.isCanonical : Float64 → Bool
  | .finite _ mant exp =>
    decide (mant < 2 ^ 53) && decide (-1074 ≤ exp) && decide (exp ≤ 971)
    && (decide (2 ^ 52 ≤ mant) || decide (exp = -1074))
  | _ => true

/-- A JSON number literal. `int` is a literal written with digits only;
`dec` is a literal with a fraction or an exponent part, of value
`± mant × 10 ^ exp`. -/
inductive JNumber where
  | int (neg : Bool) (abs : Nat)
  | dec (neg : Bool) (mant : Nat) (exp : Int)
  deriving DecidableEq

/-- Number of binary digits of `n`, by halving at most `fuel` times. -/
def bitLenAux : Nat → Nat → Nat
  | 0, _ => 0
  | fuel + 1, n => if n = 0 then 0 else bitLenAux fuel (n / 2) + 1

/-- Number of binary digits of `n` (`0` for `0`). -/
def bitLen (n : Nat) : Nat := bitLenAux n n

/-- The quotient `a / (b × 2 ^ e)` as a fraction of naturals. -/
def scaleBy (a b : Nat) (e : Int) : Nat × Nat :=
  if 0 ≤ e then (a, b * 2 ^ e.toNat) else (a * 2 ^ (-e).toNat, b)

/-- Rounding of `± a / b` at the binary exponent `e1` (raised to `-1074` when it
is below): the quotient by `2 ^ e` is rounded to the nearest integer, ties to
the even one; a mantissa of `2 ^ 53` is renormalised; an exponent above `971`
overflows to an infinity. -/
def roundAt (neg : Bool) (a b : Nat) (e1 : Int) : Float64 :=
  let e : Int := if e1 < -1074 then -1074 else e1
  let s := scaleBy a b e
  let q := s.1 / s.2
  let r := s.1 % s.2
  let m := if s.2 < 2 * r ∨ (2 * r = s.2 ∧ q % 2 = 1) then q + 1 else q
  let me : Nat × Int := if m = 2 ^ 53 then (2 ^ 52, e + 1) else (m, e)
  if 971 < me.2 then .inf neg else .finite neg me.1 me.2

/-- The `float64` nearest to `± a / b` (`b ≠ 0`), ties to the even mantissa,
overflow to an infinity: IEEE 754 rounding, as `strconv.ParseFloat` does it.
The exponent is the one at which the quotient has 53 binary digits. -/
def Float64.round (neg : Bool) (a b : Nat) : Float64 :=
  if a = 0 then .finite neg 0 (-1074) else
  let e0 : Int := (bitLen a : Int) - (bitLen b : Int) - 53
  let s0 := scaleBy a b e0
  roundAt neg a b (if 2 ^ 53 ≤ s0.1 / s0.2 then e0 + 1 else e0)

/-- The fraction a number literal denotes, with its sign. -/
def JNumber.fraction : JNumber → Bool × Nat × Nat
  | .int neg abs => (neg, abs, 1)
  | .dec neg mant exp =>
    if 0 ≤ exp then (neg, mant * 10 ^ exp.toNat, 1) else (neg, mant, 10 ^ (-exp).toNat)

/-- The `float64` that `strconv.ParseFloat` reads from a literal. -/
def JNumber.toFloat64 (n : JNumber) : Float64 :=
  Float64.round n.fraction.1 n.fraction.2.1 n.fraction.2.2

/-- The literal of a Go `int`, as `json.Marshal` writes it. -/
def JNumber.ofInt (n : Int) : JNumber := .int (decide (n < 0)) n.natAbs

/-- The integer an all-digits literal denotes. -/
def JNumber.intValue (neg : Bool) (abs : Nat) : Int := if neg then -(abs : Int) else abs

/-- Number of decimal digits of `n`, by dividing by ten at most `fuel` times. -/
def decLenAux : Nat → Nat → Nat
  | 0, _ => 0
  | fuel + 1, n => if n = 0 then 0 else decLenAux fuel (n / 10) + 1

/-- Least `j ≤ fuel` with `den ≤ num × 10 ^ j`, counted up from `j`. -/
def decShiftAux : Nat → Nat → Nat → Nat → Nat
  | 0, _, _, j => j
  | fuel + 1, num, den, j => if den ≤ num * 10 ^ j then j else decShiftAux fuel num den (j + 1)

/-- The decimal exponent `k` of a positive fraction: `10 ^ k ≤ num / den < 10 ^ (k + 1)`. -/
def decExponent (num den : Nat) : Int :=
  if den ≤ num then (decLenAux (num / den) (num / den) : Int) - 1
  else -(decShiftAux 400 num den 0 : Int)

/-- The fraction `num / den` counted in units of `10 ^ x`: quotient, remainder and divisor. -/
def inUnits (num den : Nat) (x : Int) : Nat × Nat × Nat :=
  if 0 ≤ x then (num / (den * 10 ^ x.toNat), num % (den * 10 ^ x.toNat), den * 10 ^ x.toNat)
  else (num * 10 ^ (-x).toNat / den, num * 10 ^ (-x).toNat % den, den)

/-- Removes the trailing zeros of a decimal mantissa, raising the exponent. -/
def stripZeros : Nat → Nat → Int → Nat × Int
  | 0, d, x => (d, x)
  | fuel + 1, d, x => if d ≠ 0 ∧ d % 10 = 0 then stripZeros fuel (d / 10) (x + 1) else (d, x)

/-- The literal of the decimal `± d × 10 ^ x` as `json.Marshal` lays a `float64`
out, `k` being the decimal exponent of the value: trailing zeros of the
digits dropped, and neither fraction nor exponent part when the value is an
integer below `10 ^ 21`. -/
def layout (neg : Bool) (d : Nat) (x k : Int) : JNumber :=
  if 0 ≤ (stripZeros 20 d x).2 ∧ k < 21 then
    .int neg ((stripZeros 20 d x).1 * 10 ^ (stripZeros 20 d x).2.toNat)
  else .dec neg (stripZeros 20 d x).1 (stripZeros 20 d x).2

/-- A literal of the exact value `± mant × 2 ^ exp`. -/
def exactLiteral (neg : Bool) (mant : Nat) (exp : Int) : JNumber :=
  if 0 ≤ exp then .int neg (mant * 2 ^ exp.toNat)
  else .dec neg (mant * 5 ^ (-exp).toNat) exp

/-- The literal of the finite non-zero `float64` `± mant × 2 ^ exp`, as
`strconv.FormatFloat` with precision `-1` finds it: the decimal with the fewest
digits that reads back as the value, tried with `n` digits, then `n + 1`, up
to seventeen, which always suffice; of two such decimals the nearer one. `k` is
the decimal exponent of the value `num / den`. -/
def shortestAux (neg : Bool) (mant : Nat) (exp : Int) (num den : Nat) (k : Int) :
    Nat → Nat → JNumber
  | 0, _ => exactLiteral neg mant exp
  | fuel + 1, n =>
    let x := k + 1 - (n : Int)
    let u := inUnits num den x
    let lo := layout neg u.1 x k
    let hi := layout neg (u.1 + 1) x k
    let back (l : JNumber) : Bool := decide (l.toFloat64 = Float64.finite neg mant exp)
    if u.2.1 = 0 then (if back lo then lo else shortestAux neg mant exp num den k fuel (n + 1))
    else if back lo ∧ back hi then
      (if 2 * u.2.1 < u.2.2 ∨ (2 * u.2.1 = u.2.2 ∧ u.1 % 2 = 0) then lo else hi)
    else if back lo then lo
    else if back hi then hi
    else shortestAux neg mant exp num den k fuel (n + 1)

/-- The literal `json.Marshal` writes for a `float64`: none for NaN and the
infinities; otherwise the shortest decimal that reads back as the value. -/
def Float64.toJNumber : Float64 → Option JNumber
  | .nan => none
  | .inf _ => none
  | .finite neg mant exp =>
    if mant = 0 then some (.int neg 0)
    else
      some (shortestAux neg mant exp (scaleBy mant 1 (-exp)).1 (scaleBy mant 1 (-exp)).2
        (decExponent (scaleBy mant 1 (-exp)).1 (scaleBy mant 1 (-exp)).2) 17 1)

/-! ## Strings -/

/-- One byte of a Go string. -/
abbrev Byte := Fin 256

/-- The byte with value `n` (taken modulo 256). -/
def byte (n : Nat) : Byte := ⟨n % 256, Nat.mod_lt n (by decide)⟩

/-- A Go `string`: a sequence of bytes, which need not be valid UTF-8. -/
structure GoString where
  bytes : List Byte
  deriving DecidableEq

/-- A continuation byte of UTF-8, `0x80` to `0xBF`. -/
def isCont (b : Byte) : Bool := decide (0x80 ≤ b.val) && decide (b.val ≤ 0xBF)

/-- The UTF-8 encoding of the code point `n`. -/
def encodeRune (n : Nat) : List Byte :=
  if n < 0x80 then [byte n]
  else if n < 0x800 then [byte (0xC0 + n / 64), byte (0x80 + n % 64)]
  else if n < 0x10000 then
    [byte (0xE0 + n / 4096), byte (0x80 + n / 64 % 64), byte (0x80 + n % 64)]
  else
    [byte (0xF0 + n / 262144), byte (0x80 + n / 4096 % 64), byte (0x80 + n / 64 % 64),
      byte (0x80 + n % 64)]

/-- The replacement character U+FFFD. -/
def replacementChar : Char := Char.ofNat 0xFFFD

/-- A well-formed two-byte sequence of UTF-8. -/
def isSeq2 (b0 b1 : Byte) : Bool :=
  decide (0xC2 ≤ b0.val) && decide (b0.val ≤ 0xDF) && isCont b1

/-- A well-formed three-byte sequence of UTF-8: no overlong form, no surrogate. -/
def isSeq3 (b0 b1 b2 : Byte) : Bool :=
  decide (0xE0 ≤ b0.val) && decide (b0.val ≤ 0xEF) && isCont b1 && isCont b2
  && (decide (b0.val ≠ 0xE0) || decide (0xA0 ≤ b1.val))
  && (decide (b0.val ≠ 0xED) || decide (b1.val ≤ 0x9F))

/-- A well-formed four-byte sequence of UTF-8: no overlong form, at most U+10FFFF. -/
def isSeq4 (b0 b1 b2 b3 : Byte) : Bool :=
  decide (0xF0 ≤ b0.val) && decide (b0.val ≤ 0xF4) && isCont b1 && isCont b2 && isCont b3
  && (decide (b0.val ≠ 0xF0) || decide (0x90 ≤ b1.val))
  && (decide (b0.val ≠ 0xF4) || decide (b1.val ≤ 0x8F))

/-- The first character of a non-empty byte sequence and the number of bytes it
takes, as `utf8.DecodeRune` finds them: a well-formed UTF-8 sequence is decoded;
otherwise the result is U+FFFD for the first byte alone. -/
def decodeRune : List Byte → Char × Nat
  | [] => (replacementChar, 1)
  | b0 :: tl =>
    if b0.val < 0x80 then (Char.ofNat b0.val, 1)
    else
      match tl with
      | [] => (replacementChar, 1)
      | b1 :: tl1 =>
        if isSeq2 b0 b1 then (Char.ofNat ((b0.val - 0xC0) * 64 + (b1.val - 0x80)), 2)
        else
          match tl1 with
          | [] => (replacementChar, 1)
          | b2 :: tl2 =>
            if isSeq3 b0 b1 b2 then
              (Char.ofNat ((b0.val - 0xE0) * 4096 + (b1.val - 0x80) * 64 + (b2.val - 0x80)), 3)
            else
              match tl2 with
              | [] => (replacementChar, 1)
              | b3 :: _ =>
                if isSeq4 b0 b1 b2 b3 then
                  (Char.ofNat ((b0.val - 0xF0) * 262144 + (b1.val - 0x80) * 4096
                    + (b2.val - 0x80) * 64 + (b3.val - 0x80)), 4)
                else (replacementChar, 1)

/-- The text of a byte sequence as `json.Marshal` writes it: well-formed UTF-8
sequences are decoded, and every byte that starts none becomes U+FFFD. `skip`
counts the bytes still to pass of the sequence decoded last. -/
def decodeLossyAux : Nat → List Byte → List Char
  | _, [] => []
  | skip + 1, _ :: tl => decodeLossyAux skip tl
  | 0, b0 :: tl => (decodeRune (b0 :: tl)).1 :: decodeLossyAux ((decodeRune (b0 :: tl)).2 - 1) tl

/-- The text of a byte sequence. -/
def decodeLossy (bs : List Byte) : List Char := decodeLossyAux 0 bs

/-- The Go string of a text: its UTF-8 encoding. -/
def GoString.ofText (s : String) : GoString := ⟨s.data.flatMap (fun c => encodeRune c.toNat)⟩

/-- The text of a Go string, as `json.Marshal` writes it. -/
def GoString.toText (s : GoString) : String := ⟨decodeLossy s.bytes⟩

/-- The Go string with every byte outside a well-formed UTF-8 sequence replaced
by the encoding of U+FFFD: what a string is after `json.Marshal` and
`json.Unmarshal`. -/
def GoString.toValidUTF8 (s : GoString) : GoString := GoString.ofText s.toText

/-- A Go string is valid UTF-8: `toValidUTF8` leaves it as it is. -/
def GoString.isValidUTF8 (s : GoString) : Bool := decide (s.toValidUTF8 = s)

/-- Concatenation of Go strings. -/
def GoString.append (a b : GoString) : GoString := ⟨a.bytes ++ b.bytes⟩

instance : Append GoString := ⟨GoString.append⟩

/-- A string literal of the source is the Go string of its text. -/
instance : Coe String GoString := ⟨GoString.ofText⟩

/-! ## JSON values, dynamic values, errors -/

/-- The syntax tree of a JSON text. The members of an object are kept in the
order of the text, repeated keys included. -/
inductive Json where
  | null
  | bool (b : Bool)
  | num (n : JNumber)
  | str (s : String)
  | arr (items : List Json)
  | obj (members : List (String × Json))

/-- The values an `interface{}` slot holds in this program: what the caller
stores (`string`, `int`) and what `json.Unmarshal` stores (`nil`, `bool`,
`float64`, `string`, `[]interface{}`, `map[string]interface{}`). A slice or a
map in a slot is either the nil one (`nilSlice`, `nilMap`) or has items or
entries, possibly none. -/
inductive GoAny where
  | nil
  | bool (b : Bool)
  | string (s : GoString)
  | int (n : Int)
  | float64 (f : Float64)
  | nilSlice
  | slice (items : List GoAny)
  | nilMap
  | map (entries : List (GoString × GoAny))

/-- The Go `error` values that reach the operations. -/
inductive GoError where
  /-- Returned by `http.NewRequest` for a URL it cannot parse. -/
  | url (msg : String)
  /-- Returned by `Client.doRequest`. -/
  | transport (msg : String)
  /-- A `*json.SyntaxError`: the bytes are not JSON text. -/
  | malformed (msg : String)
  /-- A `*json.UnmarshalTypeError`: JSON `value` cannot be stored in Go type `goType`. -/
  | unmarshalType (value : String) (goType : String)
  /-- A `*json.UnsupportedValueError`: a NaN or an infinity cannot be written. -/
  | unsupportedValue (msg : String)
  deriving DecidableEq

mutual
/-- The nesting depth of a JSON text: the greatest number of arrays and objects
open at one place of it. -/
def Json.depth : Json → Nat
  | .arr items => depthItems items + 1
  | .obj members => depthMembers members + 1
  | _ => 0
/-- The greatest depth among the items of an array. -/
def depthItems : List Json → Nat
  | [] => 0
  | x :: xs => max x.depth (depthItems xs)
/-- The greatest depth among the members of an object. -/
def depthMembers : List (String × Json) → Nat
  | [] => 0
  | (_, v) :: ms => max v.depth (depthMembers ms)
end

/-- The nesting depth beyond which the scanner of `encoding/json` rejects a
text. -/
def maxNestingDepth : Nat := 10000

/-- The kind of a JSON value, as `UnmarshalTypeError.Value` names it. -/
def Json.kind : Json → String
  | .null => "null"
  | .bool _ => "bool"
  | .num _ => "number"
  | .str _ => "string"
  | .arr _ => "array"
  | .obj _ => "object"

/-- The keys of a JSON object, in order; none for other values. -/
def Json.keys : Json → List String
  | .obj members => members.map Prod.fst
  | _ => []

/-- The first member of a JSON object with key `k`. -/
def Json.member (k : String) : Json → Option Json
  | .obj members => (members.find? (fun kv => kv.1 == k)).map Prod.snd
  | _ => none

/-! ## Maps -/

/-- Order of byte sequences: the first differing byte decides, and a proper
beginning comes first. -/
def ltBytes : List Byte → List Byte → Bool
  | [], [] => false
  | [], _ :: _ => true
  | _ :: _, [] => false
  | a :: as, b :: bs =>
    if a.val < b.val then true else if b.val < a.val then false else ltBytes as bs

/-- The order `<` of Go strings. -/
def strLt (a b : GoString) : Bool := ltBytes a.bytes b.bytes

/-- The assignment `m[k] = v` on the entries of a non-nil map. -/
def mapSet {α : Type} (k : GoString) (v : α) : List (GoString × α) → List (GoString × α)
  | [] => [(k, v)]
  | (k', v') :: es =>
    if k = k' then (k, v) :: es
    else if strLt k k' then (k, v) :: (k', v') :: es
    else (k', v') :: mapSet k v es

/-- The keys of a map, `[]` for the nil map. -/
def mapKeys {α : Type} (m : Option (List (GoString × α))) : List GoString :=
  (m.getD []).map Prod.fst

/-! ## Data model (lines 10-63 of the source) -/

structure DatabricksCredentialFieldMetadataValidation where
  Required : Bool

structure DatabricksCredentialFieldMetadata where
  Label : GoString
  Description : GoString
  Field_Type : GoString
  Encrypt : Bool
  Overrideable : Bool
  Validation : DatabricksCredentialFieldMetadataValidation

/-- Value can be a string or an int (for threads). -/
structure DatabricksCredentialField where
  Metadata : DatabricksCredentialFieldMetadata
  Value : GoAny

structure DatabricksCredentialDetails where
  Fields : Option (List (GoString × DatabricksCredentialField))
  Field_Order : Option (List GoString)

structure DatabricksUnencryptedCredentialDetails where
  Catalog : GoString
  Schema : GoString
  TargetName : GoString
  Threads : Int
  Token : GoString

structure DatabricksCredential where
  ID : Option Int
  Account_Id : Int
  Project_Id : Int
  Type_ : GoString
  State : Int
  Threads : Int
  Target_Name : GoString
  Adapter_Id : Int
  Credential_Details : DatabricksCredentialDetails
  UnencryptedCredentialDetails : DatabricksUnencryptedCredentialDetails

/-- The response envelope. `ResponseStatus` is declared outside this file, so
its type `S` is a parameter. -/
structure DatabricksCredentialResponse (S : Type) where
  Data : DatabricksCredential
  Status : S

/-! Zero values of the struct types. -/

def zeroValidation : DatabricksCredentialFieldMetadataValidation := ⟨false⟩

def zeroMetadata : DatabricksCredentialFieldMetadata :=
  ⟨⟨[]⟩, ⟨[]⟩, ⟨[]⟩, false, false, zeroValidation⟩

def zeroField : DatabricksCredentialField := ⟨zeroMetadata, .nil⟩

def zeroDetails : DatabricksCredentialDetails := ⟨none, none⟩

def zeroUnencrypted : DatabricksUnencryptedCredentialDetails := ⟨⟨[]⟩, ⟨[]⟩, ⟨[]⟩, 0, ⟨[]⟩⟩

def zeroCredential : DatabricksCredential :=
  ⟨none, 0, 0, ⟨[]⟩, 0, 0, ⟨[]⟩, 0, zeroDetails, zeroUnencrypted⟩

/-! ## The payload of `CreateDatabricksCredential` (lines 85-165) -/

/-- The package constants `STATE_ACTIVE` and `NUM_THREADS_CREDENTIAL`, which are
declared outside this file. -/
structure Constants where
  STATE_ACTIVE : Int
  NUM_THREADS_CREDENTIAL : Int

/-- The map `credentialFields` after the two `if adapterType == ...` blocks. -/
def credentialFields (k : Constants) (token catalog schema adapterType : GoString) :
    List (GoString × DatabricksCredentialField) :=
  let validation : DatabricksCredentialFieldMetadataValidation := { Required := false }
  let tokenMetadata : DatabricksCredentialFieldMetadata :=
    { Label := "Token", Description := "Personalized user token.", Field_Type := "text",
      Encrypt := true, Overrideable := false, Validation := validation }
  let catalogMetadata : DatabricksCredentialFieldMetadata :=
    { Label := "Catalog",
      Description := "Catalog name if Unity Catalog is enabled in your Databricks workspace.  Only available in dbt version 1.1 and later.",
      Field_Type := "text", Encrypt := false, Overrideable := false, Validation := validation }
  let schemaMetadata : DatabricksCredentialFieldMetadata :=
    { Label := "Schema", Description := "User schema.", Field_Type := "text",
      Encrypt := false, Overrideable := false, Validation := validation }
  let threadsMetadata : DatabricksCredentialFieldMetadata :=
    { Label := "Threads", Description := "The number of threads to use for your jobs.",
      Field_Type := "number", Encrypt := false, Overrideable := false, Validation := validation }
  let credentialsFieldToken : DatabricksCredentialField :=
    { Metadata := tokenMetadata, Value := .string token }
  let credentialsFieldCatalog : DatabricksCredentialField :=
    { Metadata := catalogMetadata, Value := .string catalog }
  let credentialsFieldSchema : DatabricksCredentialField :=
    { Metadata := schemaMetadata, Value := .string schema }
  let credentialsFieldThreads : DatabricksCredentialField :=
    { Metadata := threadsMetadata, Value := .int k.NUM_THREADS_CREDENTIAL }
  let fields0 : List (GoString × DatabricksCredentialField) := []
  let fields1 :=
    if adapterType = "databricks" then
      mapSet "schema" credentialsFieldSchema
        (mapSet "token" credentialsFieldToken (mapSet "catalog" credentialsFieldCatalog fields0))
    else fields0
  let fields2 :=
    if adapterType = "spark" then
      mapSet "threads" credentialsFieldThreads
        (mapSet "schema" credentialsFieldSchema (mapSet "token" credentialsFieldToken fields1))
    else fields1
  fields2

/-- The value `newDatabricksCredential` that `CreateDatabricksCredential`
marshals; `accountID` is `c.AccountID`. -/
def newDatabricksCredential (k : Constants) (accountID projectId : Int)
    (type_ targetName : GoString) (adapterId : Int)
    (token catalog schema adapterType : GoString) : DatabricksCredential :=
  let credentialDetails : DatabricksCredentialDetails :=
    { Fields := some (credentialFields k token catalog schema adapterType),
      Field_Order := some [] }
  { ID := none
    Account_Id := accountID
    Project_Id := projectId
    Type_ := type_
    State := k.STATE_ACTIVE
    Threads := k.NUM_THREADS_CREDENTIAL
    Target_Name := targetName
    Adapter_Id := adapterId
    Credential_Details := credentialDetails
    UnencryptedCredentialDetails := zeroUnencrypted }

/-! ## `json.Marshal` on the data model -/

/-- What `json.Marshal` writes for a NaN or an infinity in a `Value` slot. -/
def unsupportedFloat : GoError := .unsupportedValue "json: unsupported value"

mutual
/-- Encoding of an `interface{}` value. -/
def encAny : GoAny → Except GoError Json
  | .nil => .ok .null
  | .bool b => .ok (.bool b)
  | .string s => .ok (.str s.toText)
  | .int n => .ok (.num (JNumber.ofInt n))
  | .float64 f =>
    match f.toJNumber with
    | some n => .ok (.num n)
    | none => .error unsupportedFloat
  | .nilSlice => .ok .null
  | .slice items =>
    match encAnyItems items with
    | .ok js => .ok (.arr js)
    | .error e => .error e
  | .nilMap => .ok .null
  | .map entries =>
    match encAnyEntries entries with
    | .ok ms => .ok (.obj ms)
    | .error e => .error e
/-- Encoding of the items of a `[]interface{}`. -/
def encAnyItems : List GoAny → Except GoError (List Json)
  | [] => .ok []
  | x :: xs =>
    match encAny x with
    | .error e => .error e
    | .ok j =>
      match encAnyItems xs with
      | .error e => .error e
      | .ok js => .ok (j :: js)
/-- Encoding of the entries of a `map[string]interface{}`, in key order. -/
def encAnyEntries : List (GoString × GoAny) → Except GoError (List (String × Json))
  | [] => .ok []
  | (k, v) :: es =>
    match encAny v with
    | .error e => .error e
    | .ok j =>
      match encAnyEntries es with
      | .error e => .error e
      | .ok ms => .ok ((k.toText, j) :: ms)
end

/-- Encoding of a Go `int`. -/
def encInt (n : Int) : Json := .num (JNumber.ofInt n)

/-- Encoding of a `*int`. -/
def encIntPtr : Option Int → Json
  | none => .null
  | some n => encInt n

/-- Encoding of a `[]string`. -/
def encStrings : Option (List GoString) → Json
  | none => .null
  | some xs => .arr (xs.map (fun s => Json.str s.toText))

def encValidation (v : DatabricksCredentialFieldMetadataValidation) : Json :=
  .obj [("required", .bool v.Required)]

def encMetadata (m : DatabricksCredentialFieldMetadata) : Json :=
  .obj [("label", .str m.Label.toText), ("description", .str m.Description.toText),
    ("field_type", .str m.Field_Type.toText), ("encrypt", .bool m.Encrypt),
    ("overrideable", .bool m.Overrideable), ("validation", encValidation m.Validation)]

def encField (f : DatabricksCredentialField) : Except GoError Json :=
  match encAny f.Value with
  | .error e => .error e
  | .ok v => .ok (.obj [("metadata", encMetadata f.Metadata), ("value", v)])

/-- Encoding of the entries of the `Fields` map, in key order. -/
def encFieldEntries :
    List (GoString × DatabricksCredentialField) → Except GoError (List (String × Json))
  | [] => .ok []
  | (k, f) :: es =>
    match encField f with
    | .error e => .error e
    | .ok j =>
      match encFieldEntries es with
      | .error e => .error e
      | .ok ms => .ok ((k.toText, j) :: ms)

/-- Encoding of the `Fields` map: `null` for the nil map. -/
def encFields : Option (List (GoString × DatabricksCredentialField)) → Except GoError Json
  | none => .ok .null
  | some es =>
    match encFieldEntries es with
    | .error e => .error e
    | .ok ms => .ok (.obj ms)

def encDetails (d : DatabricksCredentialDetails) : Except GoError Json :=
  match encFields d.Fields with
  | .error e => .error e
  | .ok fs => .ok (.obj [("fields", fs), ("field_order", encStrings d.Field_Order)])

/-- Encoding of the unencrypted details; `token` carries `omitempty`. -/
def encUnencrypted (u : DatabricksUnencryptedCredentialDetails) : Json :=
  .obj ([("catalog", .str u.Catalog.toText), ("schema", .str u.Schema.toText),
    ("target_name", .str u.TargetName.toText), ("threads", encInt u.Threads)]
    ++ (if u.Token = "" then [] else [("token", .str u.Token.toText)]))

/-- The JSON that `json.Marshal` writes for a `DatabricksCredential`. -/
def marshalCredential (c : DatabricksCredential) : Except GoError Json :=
  match encDetails c.Credential_Details with
  | .error e => .error e
  | .ok details =>
    .ok (.obj [("id", encIntPtr c.ID), ("account_id", encInt c.Account_Id),
      ("project_id", encInt c.Project_Id), ("type", .str c.Type_.toText),
      ("state", encInt c.State), ("threads", encInt c.Threads),
      ("target_name", .str c.Target_Name.toText),
      ("adapter_id", encInt c.Adapter_Id), ("credential_details", details),
      ("unencrypted_credential_details", encUnencrypted c.UnencryptedCredentialDetails)])

/-! ## `json.Unmarshal` on the data model -/

/-- The error for a JSON value that does not fit the Go type of its target. -/
def typeError (j : Json) (goType : String) : GoError := .unmarshalType j.kind goType

def decBool (cur : Bool) : Json → Except GoError Bool
  | .null => .ok cur
  | .bool b => .ok b
  | j => .error (typeError j "bool")

def decString (cur : GoString) : Json → Except GoError GoString
  | .null => .ok cur
  | .str s => .ok (GoString.ofText s)
  | j => .error (typeError j "string")

/-- Storing into an `int`: the literal has digits only and fits 64 bits. -/
def decInt (cur : Int) : Json → Except GoError Int
  | .null => .ok cur
  | .num (.int neg abs) =>
    if isInt64 (JNumber.intValue neg abs) then .ok (JNumber.intValue neg abs)
    else .error (.unmarshalType "number" "int")
  | j => .error (typeError j "int")

/-- Storing into a `*int`: `null` makes the pointer nil; another value is stored in
the pointed integer, which is allocated when the pointer was nil. -/
def decIntPtr (cur : Option Int) : Json → Except GoError (Option Int)
  | .null => .ok none
  | j =>
    match decInt (cur.getD 0) j with
    | .error e => .error e
    | .ok n => .ok (some n)

/-- Storing the items of a JSON array into the elements of a `[]string`; the
elements the slice already had are the current values of the first items. -/
def decStringItems : List GoString → List Json → Except GoError (List GoString)
  | _, [] => .ok []
  | cur, j :: js =>
    match decString (cur.headD ⟨[]⟩) j with
    | .error e => .error e
    | .ok s =>
      match decStringItems cur.tail js with
      | .error e => .error e
      | .ok ss => .ok (s :: ss)

def decStrings (cur : Option (List GoString)) :
    Json → Except GoError (Option (List GoString))
  | .null => .ok none
  | .arr items =>
    match decStringItems (cur.getD []) items with
    | .error e => .error e
    | .ok ss => .ok (some ss)
  | j => .error (typeError j "[]string")

mutual
/-- Storing into an `interface{}`: the value is replaced by what the JSON value
denotes, a number by the `float64` it reads as. -/
def decAny : Json → Except GoError GoAny
  | .null => .ok .nil
  | .bool b => .ok (.bool b)
  | .num n =>
    match n.toFloat64 with
    | .finite neg mant exp => .ok (.float64 (.finite neg mant exp))
    | _ => .error (.unmarshalType "number" "float64")
  | .str s => .ok (.string s)
  | .arr items =>
    match decAnyItems items with
    | .ok xs => .ok (.slice xs)
    | .error e => .error e
  | .obj members =>
    match decAnyMembers members [] with
    | .ok es => .ok (.map es)
    | .error e => .error e
/-- The items of a JSON array as a `[]interface{}`. -/
def decAnyItems : List Json → Except GoError (List GoAny)
  | [] => .ok []
  | j :: js =>
    match decAny j with
    | .error e => .error e
    | .ok x =>
      match decAnyItems js with
      | .error e => .error e
      | .ok xs => .ok (x :: xs)
/-- The members of a JSON object stored one after the other in a
`map[string]interface{}`. -/
def decAnyMembers : List (String × Json) → List (GoString × GoAny) →
    Except GoError (List (GoString × GoAny))
  | [], acc => .ok acc
  | (k, j) :: ms, acc =>
    match decAny j with
    | .error e => .error e
    | .ok x => decAnyMembers ms (mapSet (GoString.ofText k) x acc)
end

/-- Case folding of one character of an object key: ASCII capitals, the long s
(U+017F) and the Kelvin sign (U+212A) fold to their small ASCII letter. -/
def foldRune (c : Char) : Char :=
  if 65 ≤ c.toNat ∧ c.toNat ≤ 90 then Char.ofNat (c.toNat + 32)
  else if c.toNat = 0x17F then 's'
  else if c.toNat = 0x212A then 'k'
  else c

/-- Case folding of an object key. A key selects the struct field whose JSON
name is its folding; the JSON names of this file are in small letters. -/
def foldName (s : String) : String := ⟨s.data.map foldRune⟩

/-- Storing the members of an object, one after the other, into a struct;
`step` stores one member, given the folded key. -/
def decMembers {T : Type} (step : T → String → Json → Except GoError T) :
    T → List (String × Json) → Except GoError T
  | cur, [] => .ok cur
  | cur, (k, j) :: ms =>
    match step cur (foldName k) j with
    | .error e => .error e
    | .ok next => decMembers step next ms

/-- Storing into a struct of Go type `goType`: `null` changes nothing, an object
stores its members, any other value is a type error. -/
def decStruct {T : Type} (goType : String) (step : T → String → Json → Except GoError T)
    (cur : T) : Json → Except GoError T
  | .null => .ok cur
  | .obj members => decMembers step cur members
  | j => .error (typeError j goType)

def stepValidation (cur : DatabricksCredentialFieldMetadataValidation) (name : String)
    (j : Json) : Except GoError DatabricksCredentialFieldMetadataValidation :=
  if name = "required" then (decBool cur.Required j).map (fun b => { cur with Required := b })
  else .ok cur

def decValidation := decStruct "dbt_cloud.DatabricksCredentialFieldMetadataValidation" stepValidation

def stepMetadata (cur : DatabricksCredentialFieldMetadata) (name : String) (j : Json) :
    Except GoError DatabricksCredentialFieldMetadata :=
  if name = "label" then (decString cur.Label j).map (fun s => { cur with Label := s })
  else if name = "description" then
    (decString cur.Description j).map (fun s => { cur with Description := s })
  else if name = "field_type" then
    (decString cur.Field_Type j).map (fun s => { cur with Field_Type := s })
  else if name = "encrypt" then (decBool cur.Encrypt j).map (fun b => { cur with Encrypt := b })
  else if name = "overrideable" then
    (decBool cur.Overrideable j).map (fun b => { cur with Overrideable := b })
  else if name = "validation" then
    (decValidation cur.Validation j).map (fun v => { cur with Validation := v })
  else .ok cur

def decMetadata := decStruct "dbt_cloud.DatabricksCredentialFieldMetadata" stepMetadata

def stepField (cur : DatabricksCredentialField) (name : String) (j : Json) :
    Except GoError DatabricksCredentialField :=
  if name = "metadata" then (decMetadata cur.Metadata j).map (fun m => { cur with Metadata := m })
  else if name = "value" then (decAny j).map (fun v => { cur with Value := v })
  else .ok cur

def decField := decStruct "dbt_cloud.DatabricksCredentialField" stepField

/-- Storing the members of an object into the `Fields` map: each value is
decoded into a zero field, which is then assigned to its key. -/
def decFieldEntries : List (String × Json) → List (GoString × DatabricksCredentialField) →
    Except GoError (List (GoString × DatabricksCredentialField))
  | [], acc => .ok acc
  | (k, j) :: ms, acc =>
    match decField zeroField j with
    | .error e => .error e
    | .ok f => decFieldEntries ms (mapSet (GoString.ofText k) f acc)

/-- Storing into the `Fields` map: `null` makes it nil, an object stores its
members in the map, which is made when it was nil. -/
def decFields (cur : Option (List (GoString × DatabricksCredentialField))) :
    Json → Except GoError (Option (List (GoString × DatabricksCredentialField)))
  | .null => .ok none
  | .obj members =>
    match decFieldEntries members (cur.getD []) with
    | .error e => .error e
    | .ok es => .ok (some es)
  | j => .error (typeError j "map[string]dbt_cloud.DatabricksCredentialField")

def stepDetails (cur : DatabricksCredentialDetails) (name : String) (j : Json) :
    Except GoError DatabricksCredentialDetails :=
  if name = "fields" then (decFields cur.Fields j).map (fun m => { cur with Fields := m })
  else if name = "field_order" then
    (decStrings cur.Field_Order j).map (fun o => { cur with Field_Order := o })
  else .ok cur

def decDetails := decStruct "dbt_cloud.DatabricksCredentialDetails" stepDetails

def stepUnencrypted (cur : DatabricksUnencryptedCredentialDetails) (name : String) (j : Json) :
    Except GoError DatabricksUnencryptedCredentialDetails :=
  if name = "catalog" then (decString cur.Catalog j).map (fun s => { cur with Catalog := s })
  else if name = "schema" then (decString cur.Schema j).map (fun s => { cur with Schema := s })
  else if name = "target_name" then
    (decString cur.TargetName j).map (fun s => { cur with TargetName := s })
  else if name = "threads" then (decInt cur.Threads j).map (fun n => { cur with Threads := n })
  else if name = "token" then (decString cur.Token j).map (fun s => { cur with Token := s })
  else .ok cur

def decUnencrypted :=
  decStruct "dbt_cloud.DatabricksUnencryptedCredentialDetails" stepUnencrypted

def stepCredential (cur : DatabricksCredential) (name : String) (j : Json) :
    Except GoError DatabricksCredential :=
  if name = "id" then (decIntPtr cur.ID j).map (fun p => { cur with ID := p })
  else if name = "account_id" then
    (decInt cur.Account_Id j).map (fun n => { cur with Account_Id := n })
  else if name = "project_id" then
    (decInt cur.Project_Id j).map (fun n => { cur with Project_Id := n })
  else if name = "type" then (decString cur.Type_ j).map (fun s => { cur with Type_ := s })
  else if name = "state" then (decInt cur.State j).map (fun n => { cur with State := n })
  else if name = "threads" then (decInt cur.Threads j).map (fun n => { cur with Threads := n })
  else if name = "target_name" then
    (decString cur.Target_Name j).map (fun s => { cur with Target_Name := s })
  else if name = "adapter_id" then
    (decInt cur.Adapter_Id j).map (fun n => { cur with Adapter_Id := n })
  else if name = "credential_details" then
    (decDetails cur.Credential_Details j).map (fun d => { cur with Credential_Details := d })
  else if name = "unencrypted_credential_details" then
    (decUnencrypted cur.UnencryptedCredentialDetails j).map
      (fun u => { cur with UnencryptedCredentialDetails := u })
  else .ok cur

/-- Storing a JSON value into a `DatabricksCredential`. -/
def decCredential := decStruct "dbt_cloud.DatabricksCredential" stepCredential

/-- The JSON behaviour of the type `ResponseStatus`, which is declared outside
this file: its zero value and how a JSON value is stored into it. -/
structure StatusCodec (S : Type) where
  zero : S
  decode : S → Json → Except GoError S

def stepResponse {S : Type} (sc : StatusCodec S) (cur : DatabricksCredentialResponse S)
    (name : String) (j : Json) : Except GoError (DatabricksCredentialResponse S) :=
  if name = "data" then (decCredential cur.Data j).map (fun d => { cur with Data := d })
  else if name = "status" then (sc.decode cur.Status j).map (fun s => { cur with Status := s })
  else .ok cur

/-- The bytes handed to `json.Unmarshal`: JSON text that its scanner accepts,
given by its syntax tree, or bytes that the scanner rejects, with its message. -/
inductive Body where
  | json (j : Json)
  | malformed (msg : String)

/-- The bytes of a JSON text as the scanner of `json.Unmarshal` sees them: a
text nested deeper than `maxNestingDepth` is rejected. -/
def Body.ofJson (j : Json) : Body :=
  if j.depth ≤ maxNestingDepth then .json j else .malformed "exceeded max depth"

/-- The call `json.Unmarshal(data, &v)` on a zero `DatabricksCredential`. -/
def unmarshalCredential (data : Body) : Except GoError DatabricksCredential :=
  match data with
  | .malformed msg => .error (.malformed msg)
  | .json j => decCredential zeroCredential j

/-- The call `json.Unmarshal(body, &credentialResponse)` on the zero envelope. -/
def unmarshalResponse {S : Type} (sc : StatusCodec S) (body : Body) :
    Except GoError (DatabricksCredentialResponse S) :=
  match body with
  | .malformed msg => .error (.malformed msg)
  | .json j =>
    decStruct "dbt_cloud.DatabricksCredentialResponse" (stepResponse sc)
      { Data := zeroCredential, Status := sc.zero } j

/-! ## The client and its operations (lines 65-228) -/

/-- An `*http.Request`: the method, the URL string that was handed to
`http.NewRequest`, and the JSON text of the body, if any. -/
structure Request where
  method : String
  url : GoString
  body : Option Json

/-- The client with its collaborators. `doRequest` runs a request in a state
of the outside world `σ` and returns the response bytes or an error, and the
next state. `urlError` is the error `http.NewRequest` reports for a URL it
cannot parse. `status` is the JSON behaviour of `ResponseStatus`. -/
structure Client (σ S : Type) where
  HostURL : GoString
  AccountID : Int
  doRequest : Request → σ → Except GoError Body × σ
  urlError : GoString → Option GoError
  status : StatusCodec S

/-- The verb `%d` of `fmt.Sprintf` on an `int`: decimal digits, `-` before a
negative number. -/
def fmtD (n : Int) : GoString := GoString.ofText (toString n)

/-- The call `http.NewRequest(method, url, body)` with one of the methods `GET`,
`POST`, `DELETE`. -/
def NewRequest {σ S : Type} (c : Client σ S) (method : String) (url : GoString)
    (body : Option Json) :
    Except GoError Request :=
  match c.urlError url with
  | some err => .error err
  | none => .ok { method := method, url := url, body := body }

def GetDatabricksCredential {σ S : Type} (c : Client σ S) (projectId credentialId : Int)
    (w : σ) : Except GoError DatabricksCredential × σ :=
  match NewRequest c "GET"
      (c.HostURL ++ "/v3/accounts/" ++ fmtD c.AccountID ++ "/projects/" ++ fmtD projectId
        ++ "/credentials/" ++ fmtD credentialId ++ "/?include_related=[adapter]") none with
  | .error err => (.error err, w)
  | .ok req =>
    match c.doRequest req w with
    | (.error err, w1) => (.error err, w1)
    | (.ok body, w1) =>
      match unmarshalResponse c.status body with
      | .error err => (.error err, w1)
      | .ok credentialResponse => (.ok credentialResponse.Data, w1)

def CreateDatabricksCredential {σ S : Type} (c : Client σ S) (k : Constants) (projectId : Int)
    (type_ targetName : GoString) (adapterId : Int)
    (token catalog schema adapterType : GoString)
    (w : σ) : Except GoError DatabricksCredential × σ :=
  match marshalCredential (newDatabricksCredential k c.AccountID projectId type_ targetName
      adapterId token catalog schema adapterType) with
  | .error err => (.error err, w)
  | .ok newDatabricksCredentialData =>
    match NewRequest c "POST"
        (c.HostURL ++ "/v3/accounts/" ++ fmtD c.AccountID ++ "/projects/" ++ fmtD projectId
          ++ "/credentials/") (some newDatabricksCredentialData) with
    | .error err => (.error err, w)
    | .ok req =>
      match c.doRequest req w with
      | (.error err, w1) => (.error err, w1)
      | (.ok body, w1) =>
        match unmarshalResponse c.status body with
        | .error err => (.error err, w1)
        | .ok databricksCredentialResponse => (.ok databricksCredentialResponse.Data, w1)

def UpdateDatabricksCredential {σ S : Type} (c : Client σ S) (projectId credentialId : Int)
    (databricksCredential : DatabricksCredential) (w : σ) :
    Except GoError DatabricksCredential × σ :=
  match marshalCredential databricksCredential with
  | .error err => (.error err, w)
  | .ok databricksCredentialData =>
    match NewRequest c "POST"
        (c.HostURL ++ "/v3/accounts/" ++ fmtD c.AccountID ++ "/projects/" ++ fmtD projectId
          ++ "/credentials/" ++ fmtD credentialId ++ "/") (some databricksCredentialData) with
    | .error err => (.error err, w)
    | .ok req =>
      match c.doRequest req w with
      | (.error err, w1) => (.error err, w1)
      | (.ok body, w1) =>
        match unmarshalResponse c.status body with
        | .error err => (.error err, w1)
        | .ok databricksCredentialResponse => (.ok databricksCredentialResponse.Data, w1)

/-- The result is the pair `(string, error)` of the source, `none` being the nil
error. -/
def DeleteDatabricksCredential {σ S : Type} (c : Client σ S)
    (credentialId projectId : GoString) (w : σ) : (GoString × Option GoError) × σ :=
  match NewRequest c "DELETE"
      (c.HostURL ++ "/v3/accounts/" ++ fmtD c.AccountID ++ "/projects/" ++ projectId
        ++ "/credentials/" ++ credentialId ++ "/") none with
  | .error err => (("", some err), w)
  | .ok req =>
    match c.doRequest req w with
    | (.error err, w1) => (("", some err), w1)
    | (.ok _, w1) => (("", none), w1)

/-- The client `c` with a journal: every request handed to `doRequest` is
appended to the second component of the state. -/
def Client.journaled {σ S : Type} (c : Client σ S) : Client (σ × List Request) S :=
  { HostURL := c.HostURL
    AccountID := c.AccountID
    doRequest := fun req w => ((c.doRequest req w.1).1, ((c.doRequest req w.1).2, w.2 ++ [req]))
    urlError := c.urlError
    status := c.status }

/-- The `ResponseStatus` behaviour of a struct type without JSON fields: `null`
and objects are accepted, other values are type errors. -/
def plainStatus : StatusCodec Unit :=
  { zero := (), decode := decStruct "dbt_cloud.ResponseStatus" (fun cur _ _ => .ok cur) }

/-- The call `json.Marshal(c)` followed by `json.Unmarshal` of the bytes into a
zero `DatabricksCredential`. -/
def roundTrip (c : DatabricksCredential) : Except GoError DatabricksCredential :=
  match marshalCredential c with
  | .error err => .error err
  | .ok j => unmarshalCredential (Body.ofJson j)

/-! ## Notions used by the statements -/

/-- The common second half of Get, Create and Update (lines 71-82, 177-188 and
202-213): run the request, decode the envelope, return its data. -/
def sendAndDecode {σ S : Type} (c : Client σ S) (req : Request) (w : σ) :
    Except GoError DatabricksCredential × σ :=
  match c.doRequest req w with
  | (.error err, w1) => (.error err, w1)
  | (.ok body, w1) =>
    match unmarshalResponse c.status body with
    | .error err => (.error err, w1)
    | .ok credentialResponse => (.ok credentialResponse.Data, w1)

/-- Errors come back unchanged, after one call of `doRequest`. `built` is what
marshalling the body and `http.NewRequest` give for this call, `result` the
result and the final state of the run of the operation on client `c` from
state `w`, `journal` the requests the same run hands to `doRequest`.

* When building fails with `e`, the run returns `e` in state `w` and hands
  over nothing.
* When the request `req` is built, the run hands over exactly `req`, once. If
  `doRequest` returns the error `e` on it, the run returns `e`. If it returns
  a body that the decoder rejects with `d`, the run returns `d`. If it
  returns a body that decodes, the run returns the decoded data and no error.

`result` is thereby fixed in every case, so the run has no other error. -/
def SurfacesErrors {σ S : Type} (c : Client σ S) (w : σ) (built : Except GoError Request)
    (result : Except GoError DatabricksCredential × σ) (journal : List Request) : Prop :=
  (∀ e, built = .error e → result = (.error e, w) ∧ journal = [])
  ∧ (∀ req, built = .ok req →
      journal = [req]
      ∧ (∀ e w1, c.doRequest req w = (.error e, w1) → result = (.error e, w1))
      ∧ (∀ body w1 d, c.doRequest req w = (.ok body, w1) →
          unmarshalResponse c.status body = .error d → result = (.error d, w1))
      ∧ (∀ body w1 resp, c.doRequest req w = (.ok body, w1) →
          unmarshalResponse c.status body = .ok resp → result = (.ok resp.Data, w1)))

/-- A client over the one-state world whose `doRequest` always returns `answer`
and whose URLs all parse. -/
def fixedClient (answer : Except GoError Body) : Client Unit Unit :=
  { HostURL := "https://cloud.getdbt.com/api"
    AccountID := 7
    doRequest := fun _ w => (answer, w)
    urlError := fun _ => none
    status := plainStatus }

/-- The keys of the member `name` of each request body in a journal. -/
def sentKeysOf (name : String) (journal : List Request) : List (Option (List String)) :=
  journal.map (fun req => ((req.body.bind (Json.member name)).map Json.keys))

/-- A response envelope whose data object has a null `id`. -/
def nullIdEnvelope : Body :=
  .json (.obj [("data", .obj [("id", .null)]), ("status", .obj [])])

/-- The `float64` nearest to an `int`: what a number written by `json.Marshal`
for the `int` reads back as in an `interface{}` slot. -/
def floatOfInt (n : Int) : Float64 := (JNumber.ofInt n).toFloat64

mutual
/-- The value an `interface{}` slot holds after marshalling and unmarshalling:
an `int` has become the `float64` nearest to it, a nil slice or nil map the
nil interface, and a string, also as a key, valid UTF-8. -/
def GoAny.afterRoundTrip : GoAny → GoAny
  | .nil => .nil
  | .bool b => .bool b
  | .string s => .string s.toValidUTF8
  | .int n => .float64 (floatOfInt n)
  | .float64 f => .float64 f
  | .nilSlice => .nil
  | .slice items => .slice (afterRoundTripItems items)
  | .nilMap => .nil
  | .map entries => .map (afterRoundTripEntries entries [])
/-- The items of a `[]interface{}` after marshalling and unmarshalling. -/
def afterRoundTripItems : List GoAny → List GoAny
  | [] => []
  | x :: xs => x.afterRoundTrip :: afterRoundTripItems xs
/-- The entries of a `map[string]interface{}` after marshalling and
unmarshalling, assigned one after the other to the entries `acc`. -/
def afterRoundTripEntries : List (GoString × GoAny) → List (GoString × GoAny) →
    List (GoString × GoAny)
  | [], acc => acc
  | (k, v) :: es, acc => afterRoundTripEntries es (mapSet k.toValidUTF8 v.afterRoundTrip acc)
end

/-- A field after marshalling and unmarshalling. -/
def DatabricksCredentialField.afterRoundTrip (f : DatabricksCredentialField) :
    DatabricksCredentialField :=
  { Metadata :=
      { f.Metadata with
        Label := f.Metadata.Label.toValidUTF8
        Description := f.Metadata.Description.toValidUTF8
        Field_Type := f.Metadata.Field_Type.toValidUTF8 }
    Value := f.Value.afterRoundTrip }

/-- The entries of the `Fields` map after marshalling and unmarshalling,
assigned one after the other to the entries `acc`. -/
def fieldsAfterRoundTrip : List (GoString × DatabricksCredentialField) →
    List (GoString × DatabricksCredentialField) → List (GoString × DatabricksCredentialField)
  | [], acc => acc
  | (k, f) :: es, acc => fieldsAfterRoundTrip es (mapSet k.toValidUTF8 f.afterRoundTrip acc)

/-- A credential after marshalling and unmarshalling: every string has become
valid UTF-8 and every `int` in a `Value` slot the `float64` nearest to it;
everything else is as it was. -/
def DatabricksCredential.afterRoundTrip (c : DatabricksCredential) : DatabricksCredential :=
  { c with
    Type_ := c.Type_.toValidUTF8
    Target_Name := c.Target_Name.toValidUTF8
    Credential_Details :=
      { Fields := c.Credential_Details.Fields.map (fun es => fieldsAfterRoundTrip es [])
        Field_Order :=
          c.Credential_Details.Field_Order.map (fun xs => xs.map GoString.toValidUTF8) }
    UnencryptedCredentialDetails :=
      { c.UnencryptedCredentialDetails with
        Catalog := c.UnencryptedCredentialDetails.Catalog.toValidUTF8
        Schema := c.UnencryptedCredentialDetails.Schema.toValidUTF8
        TargetName := c.UnencryptedCredentialDetails.TargetName.toValidUTF8
        Token := c.UnencryptedCredentialDetails.Token.toValidUTF8 } }

/-- The keys of a map representation increase strictly. -/
def keysAscending : List GoString → Bool
  | [] => true
  | k :: ks => ks.all (fun k' => strLt k k') && keysAscending ks

mutual
/-- A value that `json.Marshal` writes: a Go value of this model (an `int`
within 64 bits, a `float64` in canonical form, map entries in increasing key
order) none of whose `float64`s is NaN or an infinity. -/
def GoAny.isWritable : GoAny → Bool
  | .nil => true
  | .bool _ => true
  | .string _ => true
  | .int n => isInt64 n
  | .float64 (.finite neg mant exp) => (Float64.finite neg mant exp).isCanonical
  | .float64 _ => false
  | .nilSlice => true
  | .slice items => allWritable items
  | .nilMap => true
  | .map entries => keysAscending (entries.map Prod.fst) && allWritableEntries entries
/-- Every item is writable. -/
def allWritable : List GoAny → Bool
  | [] => true
  | x :: xs => x.isWritable && allWritable xs
/-- Every entry has a writable value. -/
def allWritableEntries : List (GoString × GoAny) → Bool
  | [] => true
  | (_, v) :: es => v.isWritable && allWritableEntries es
end

mutual
/-- A value without what marshalling and unmarshalling change: no `int`, no
nil slice and no nil map, and every string, also as a key, valid UTF-8. -/
def GoAny.isStable : GoAny → Bool
  | .nil => true
  | .bool _ => true
  | .string s => s.isValidUTF8
  | .int _ => false
  | .float64 _ => true
  | .nilSlice => false
  | .slice items => allStable items
  | .nilMap => false
  | .map entries => allStableEntries entries
/-- Every item is stable. -/
def allStable : List GoAny → Bool
  | [] => true
  | x :: xs => x.isStable && allStable xs
/-- Every entry has a valid key and a stable value. -/
def allStableEntries : List (GoString × GoAny) → Bool
  | [] => true
  | (k, v) :: es => k.isValidUTF8 && v.isStable && allStableEntries es
end

/-- A credential that `json.Marshal` writes: a Go value of this model (integers
within 64 bits, entries of the `Fields` map in increasing key order) whose
`Value`s are writable. -/
def DatabricksCredential.isWritable (c : DatabricksCredential) : Bool :=
  (match c.ID with | none => true | some n => isInt64 n)
  && isInt64 c.Account_Id && isInt64 c.Project_Id && isInt64 c.State && isInt64 c.Threads
  && isInt64 c.Adapter_Id && isInt64 c.UnencryptedCredentialDetails.Threads
  && (match c.Credential_Details.Fields with
      | none => true
      | some es => keysAscending (es.map Prod.fst) && es.all (fun kv => kv.2.Value.isWritable))

mutual
/-- The nesting depth of the JSON text of a value: the greatest number of
non-nil slices and maps, one inside the other. -/
def GoAny.depth : GoAny → Nat
  | .slice items => depthOfItems items + 1
  | .map entries => depthOfEntries entries + 1
  | _ => 0
/-- The greatest depth among the items of a slice. -/
def depthOfItems : List GoAny → Nat
  | [] => 0
  | x :: xs => max x.depth (depthOfItems xs)
/-- The greatest depth among the entries of a map. -/
def depthOfEntries : List (GoString × GoAny) → Nat
  | [] => 0
  | (_, v) :: es => max v.depth (depthOfEntries es)
end

/-- The nesting depth of the JSON text of a field: an object that holds the
value and the metadata object, which holds the validation object. -/
def DatabricksCredentialField.depth (f : DatabricksCredentialField) : Nat :=
  max 2 f.Value.depth + 1

/-- The greatest depth among the entries of the `Fields` map. -/
def fieldsDepth : List (GoString × DatabricksCredentialField) → Nat
  | [] => 0
  | (_, f) :: es => max f.depth (fieldsDepth es)

/-- The nesting depth of the JSON text of the `Fields` map: `null` for the nil
map, an object otherwise. -/
def fieldsMapDepth : Option (List (GoString × DatabricksCredentialField)) → Nat
  | none => 0
  | some es => fieldsDepth es + 1

/-- The nesting depth of the JSON text of `Field_Order`: `null` for the nil
slice, an array of strings otherwise. -/
def fieldOrderDepth : Option (List GoString) → Nat
  | none => 0
  | some _ => 1

/-- The nesting depth of the JSON text of a credential: the credential object
holds the details object, which holds the `Fields` object and the
`Field_Order` array, when they are not nil. -/
def DatabricksCredential.depth (c : DatabricksCredential) : Nat :=
  max (fieldsMapDepth c.Credential_Details.Fields)
      (fieldOrderDepth c.Credential_Details.Field_Order)
    + 2

/-- A field without what marshalling and unmarshalling change. -/
def DatabricksCredentialField.isStable (f : DatabricksCredentialField) : Bool :=
  f.Metadata.Label.isValidUTF8 && f.Metadata.Description.isValidUTF8
  && f.Metadata.Field_Type.isValidUTF8 && f.Value.isStable

/-- A credential without what marshalling and unmarshalling change: every
string of it is valid UTF-8 and no `Value` holds an `int`, a nil slice or a nil
map. -/
def DatabricksCredential.isStable (c : DatabricksCredential) : Bool :=
  c.Type_.isValidUTF8 && c.Target_Name.isValidUTF8
  && c.UnencryptedCredentialDetails.Catalog.isValidUTF8
  && c.UnencryptedCredentialDetails.Schema.isValidUTF8
  && c.UnencryptedCredentialDetails.TargetName.isValidUTF8
  && c.UnencryptedCredentialDetails.Token.isValidUTF8
  && (match c.Credential_Details.Field_Order with
      | none => true
      | some xs => xs.all GoString.isValidUTF8)
  && (match c.Credential_Details.Fields with
      | none => true
      | some es => es.all (fun kv => kv.1.isValidUTF8 && kv.2.isStable))

/-- A credential whose `Fields` map has a threads entry with the `int` value 4. -/
def threadsCredential : DatabricksCredential :=
  { zeroCredential with
    Credential_Details :=
      { Fields := some [("threads", { Metadata := zeroMetadata, Value := .int 4 })],
        Field_Order := some [] } }

/-- A credential whose type is the three bytes `a`, `0xFF`, `b`, which are not
valid UTF-8. -/
def rawTypeCredential : DatabricksCredential :=
  { zeroCredential with Type_ := ⟨[byte 0x61, byte 0xFF, byte 0x62]⟩ }

/-- A credential whose `Fields` map has an entry with a NaN value. -/
def nanCredential : DatabricksCredential :=
  { zeroCredential with
    Credential_Details :=
      { Fields := some [("threads", { Metadata := zeroMetadata, Value := .float64 .nan })],
        Field_Order := none } }

/-- A credential whose `Fields` map has an entry with a nil slice as value. -/
def nilSliceCredential : DatabricksCredential :=
  { zeroCredential with
    Credential_Details :=
      { Fields := some [("threads", { Metadata := zeroMetadata, Value := .nilSlice })],
        Field_Order := none } }

/-- The value `v` inside `n` slices of one item each. -/
def nestSlices : Nat → GoAny → GoAny
  | 0, v => v
  | n + 1, v => .slice [nestSlices n v]

/-- The JSON value `j` inside `n` arrays of one item each. -/
def nestArrays : Nat → Json → Json
  | 0, j => j
  | n + 1, j => .arr [nestArrays n j]

/-- A credential whose `Fields` map has an entry whose value is nil inside `n`
slices. -/
def nestedCredential (n : Nat) : DatabricksCredential :=
  { zeroCredential with
    Credential_Details :=
      { Fields := some [("threads", { Metadata := zeroMetadata, Value := nestSlices n .nil })],
        Field_Order := none } }

/-- A credential whose `Fields` map has an entry whose value is nil inside 9997
slices, so that its JSON text is nested 10001 deep. -/
def deepCredential : DatabricksCredential := nestedCredential 9997

/-- A credential with an id, a field order, an unencrypted token, and a `Fields`
map whose values are a string, a `float64`, a list and a map. -/
def tokenCredential : DatabricksCredential :=
  { zeroCredential with
    ID := some 42
    Type_ := "adapter"
    Credential_Details :=
      { Fields := some [
          ("extra", { Metadata := zeroMetadata,
                      Value := .map [("on", .bool true), ("tags", .slice [.string "a", .nil])] }),
          ("threads", { Metadata := zeroMetadata, Value := .float64 (.finite false (2 ^ 52) (-50)) }),
          ("token", { Metadata := zeroMetadata, Value := .string "dapi" })],
        Field_Order := some ["token"] }
    UnencryptedCredentialDetails := { zeroUnencrypted with Token := "dapi" } }

/-- A credential whose `Fields` map has a token entry with a string value. -/
def plainTokenCredential : DatabricksCredential :=
  { zeroCredential with
    ID := some 42
    Credential_Details :=
      { Fields := some [("token", { Metadata := zeroMetadata, Value := .string "dapi" })],
        Field_Order := some ["token"] }
    UnencryptedCredentialDetails := { zeroUnencrypted with Token := "dapi" } }

/-- The JSON that `json.Marshal` writes for `plainTokenCredential`. -/
def plainTokenCredentialJson : Json :=
  .obj [("id", encInt 42), ("account_id", encInt 0), ("project_id", encInt 0),
    ("type", .str ""), ("state", encInt 0), ("threads", encInt 0), ("target_name", .str ""),
    ("adapter_id", encInt 0),
    ("credential_details",
      .obj [("fields",
          .obj [("token", .obj [("metadata", encMetadata zeroMetadata), ("value", .str "dapi")])]),
        ("field_order", .arr [.str "token"])]),
    ("unencrypted_credential_details",
      .obj [("catalog", .str ""), ("schema", .str ""), ("target_name", .str ""),
        ("threads", encInt 0), ("token", .str "dapi")])]

/-- The GET request of credential 42 of project 9 through `fixedClient`. -/
def getRequest42 : Request :=
  { method := "GET"
    url := "https://cloud.getdbt.com/api/v3/accounts/7/projects/9/credentials/42/?include_related=[adapter]"
    body := none }

/-- The DELETE request of credential 42 of project 9 through `fixedClient`. -/
def deleteRequest42 : Request :=
  { method := "DELETE"
    url := "https://cloud.getdbt.com/api/v3/accounts/7/projects/9/credentials/42/"
    body := none }

/-! ## Theorems -/

set_option maxRecDepth 8000

/-! ### Text and bytes -/

theorem decodeLossy_encodeRune (n : Nat) (rest : List Byte)
    (hv : n < 0xD800 ∨ (0xDFFF < n ∧ n < 0x110000)) :
    decodeLossyAux 0 (encodeRune n ++ rest) = Char.ofNat n :: decodeLossyAux 0 rest := by
  unfold encodeRune
  split_ifs with h1 h2 h3
  · have e1 : n % 256 = n := by omega
    simp [decodeLossyAux, decodeRune, byte, e1, h1]
  · have e1 : (192 + n / 64) % 256 = 192 + n / 64 := by omega
    have e2 : (128 + n % 64) % 256 = 128 + n % 64 := by omega
    have e3 : ¬ (192 + n / 64 < 128) := by omega
    have e4 : (192 + n / 64 - 192) * 64 + (128 + n % 64 - 128) = n := by omega
    have s2 : isSeq2 (byte (192 + n / 64)) (byte (128 + n % 64)) = true := by
      simp only [isSeq2, isCont, byte, e1, e2, Bool.and_eq_true, decide_eq_true_eq]
      omega
    simp [decodeLossyAux, decodeRune, s2]
    simp [byte, e1, e2, e3, e4]
    exact ⟨by rw [show n / 64 * 64 + n % 64 = n by omega], rfl⟩
  · have e1 : (224 + n / 4096) % 256 = 224 + n / 4096 := by omega
    have e2 : (128 + n / 64 % 64) % 256 = 128 + n / 64 % 64 := by omega
    have e3 : (128 + n % 64) % 256 = 128 + n % 64 := by omega
    have e4 : ¬ (224 + n / 4096 < 128) := by omega
    have e5 : (224 + n / 4096 - 224) * 4096 + (128 + n / 64 % 64 - 128) * 64
        + (128 + n % 64 - 128) = n := by omega
    have s2 : isSeq2 (byte (224 + n / 4096)) (byte (128 + n / 64 % 64)) = false := by
      simp only [isSeq2, isCont, byte, e1, e2, Bool.and_eq_false_iff, decide_eq_false_iff_not]
      omega
    have s3 : isSeq3 (byte (224 + n / 4096)) (byte (128 + n / 64 % 64)) (byte (128 + n % 64))
        = true := by
      simp only [isSeq3, isCont, byte, e1, e2, e3, Bool.and_eq_true, Bool.or_eq_true,
        decide_eq_true_eq]
      omega
    simp [decodeLossyAux, decodeRune, s2, s3]
    simp [byte, e1, e2, e3, e4, e5]
    exact ⟨by rw [show n / 4096 * 4096 + n / 64 % 64 * 64 + n % 64 = n by omega], rfl⟩
  · have e1 : (240 + n / 262144) % 256 = 240 + n / 262144 := by omega
    have e2 : (128 + n / 4096 % 64) % 256 = 128 + n / 4096 % 64 := by omega
    have e3 : (128 + n / 64 % 64) % 256 = 128 + n / 64 % 64 := by omega
    have e4 : (128 + n % 64) % 256 = 128 + n % 64 := by omega
    have e5 : ¬ (240 + n / 262144 < 128) := by omega
    have e6 : (240 + n / 262144 - 240) * 262144 + (128 + n / 4096 % 64 - 128) * 4096
        + (128 + n / 64 % 64 - 128) * 64 + (128 + n % 64 - 128) = n := by omega
    have s2 : isSeq2 (byte (240 + n / 262144)) (byte (128 + n / 4096 % 64)) = false := by
      simp only [isSeq2, isCont, byte, e1, e2, Bool.and_eq_false_iff, decide_eq_false_iff_not]
      omega
    have s3 : isSeq3 (byte (240 + n / 262144)) (byte (128 + n / 4096 % 64))
        (byte (128 + n / 64 % 64)) = false := by
      simp only [isSeq3, isCont, byte, e1, e2, e3, Bool.and_eq_false_iff, Bool.or_eq_false_iff,
        decide_eq_false_iff_not]
      omega
    have s4 : isSeq4 (byte (240 + n / 262144)) (byte (128 + n / 4096 % 64))
        (byte (128 + n / 64 % 64)) (byte (128 + n % 64)) = true := by
      simp only [isSeq4, isCont, byte, e1, e2, e3, e4, Bool.and_eq_true, Bool.or_eq_true,
        decide_eq_true_eq]
      omega
    simp [decodeLossyAux, decodeRune, s2, s3, s4]
    simp [byte, e1, e2, e3, e4, e5, e6]
    exact ⟨by rw [show n / 262144 * 262144 + n / 4096 % 64 * 4096 + n / 64 % 64 * 64 + n % 64 = n by omega], rfl⟩

theorem toText_ofText (t : String) : (GoString.ofText t).toText = t := by
  obtain ⟨cs⟩ := t
  simp only [GoString.toText, GoString.ofText, decodeLossy]
  congr 1
  induction cs with
  | nil => rfl
  | cons c cs ih =>
    simp only [List.flatMap_cons]
    have hv := c.valid
    rw [decodeLossy_encodeRune _ _ (by simpa [UInt32.isValidChar, Nat.isValidChar] using hv), ih]
    simp [Char.ofNat_toNat]

/-! ### Floating-point numbers read back -/

theorem bitLenAux_spec (fuel : Nat) :
    ∀ n : Nat, n ≤ fuel → n ≠ 0 →
      2 ^ (bitLenAux fuel n - 1) ≤ n ∧ n < 2 ^ bitLenAux fuel n ∧ 0 < bitLenAux fuel n := by
  induction fuel with
  | zero => intro n h hn; omega
  | succ fuel ih =>
    intro n h hn
    simp only [bitLenAux, hn, if_false]
    by_cases h2 : n / 2 = 0
    · have h1 : n = 1 := by omega
      subst h1
      have : bitLenAux fuel (1 / 2) = 0 := by
        cases fuel <;> simp [bitLenAux]
      simp [this]
    · obtain ⟨ha, hb, hc⟩ := ih (n / 2) (by omega) h2
      refine ⟨?_, ?_, by omega⟩
      · simp only [Nat.add_sub_cancel]
        have : 2 ^ bitLenAux fuel (n / 2) = 2 * 2 ^ (bitLenAux fuel (n / 2) - 1) := by
          rw [← pow_succ']
          congr 1
          omega
        omega
      · rw [pow_succ]
        omega

theorem bitLen_spec (n : Nat) (hn : n ≠ 0) :
    2 ^ (bitLen n - 1) ≤ n ∧ n < 2 ^ bitLen n ∧ 0 < bitLen n :=
  bitLenAux_spec n n (le_refl n) hn

theorem pow_two_lt_pow_two {i j : Nat} (h : 2 ^ i < 2 ^ j) : i < j :=
  (Nat.pow_lt_pow_iff_right (by norm_num : 1 < 2)).mp h

/-- Bracketing of the binary length of `a` when `a × 2 ^ K = m × b × 2 ^ E` and
`m` has 53 binary digits. -/
theorem bitLen_bracket (a b m K E : Nat) (ha : a ≠ 0) (hb : b ≠ 0)
    (h : a * 2 ^ K = m * (b * 2 ^ E)) (hlo : 2 ^ 52 ≤ m) (hhi : m < 2 ^ 53) :
    bitLen a + K = bitLen b + E + 53 ∨ bitLen a + K = bitLen b + E + 52 := by
  obtain ⟨a1, a2, a3⟩ := bitLen_spec a ha
  obtain ⟨b1, b2, b3⟩ := bitLen_spec b hb
  have hK : 0 < 2 ^ K := Nat.two_pow_pos K
  have hE : 0 < 2 ^ E := Nat.two_pow_pos E
  have up : 2 ^ (bitLen a - 1 + K) < 2 ^ (53 + (bitLen b + E)) := by
    calc 2 ^ (bitLen a - 1 + K) = 2 ^ (bitLen a - 1) * 2 ^ K := pow_add _ _ _
      _ ≤ a * 2 ^ K := Nat.mul_le_mul_right _ a1
      _ = m * (b * 2 ^ E) := h
      _ < 2 ^ 53 * (2 ^ bitLen b * 2 ^ E) :=
          Nat.mul_lt_mul'' hhi (Nat.mul_lt_mul_of_pos_right b2 hE)
      _ = 2 ^ (53 + (bitLen b + E)) := by rw [← pow_add, ← pow_add]
  have lo : 2 ^ (52 + (bitLen b - 1 + E)) < 2 ^ (bitLen a + K) := by
    calc 2 ^ (52 + (bitLen b - 1 + E)) = 2 ^ 52 * (2 ^ (bitLen b - 1) * 2 ^ E) := by
          rw [← pow_add, ← pow_add]
      _ ≤ m * (b * 2 ^ E) := Nat.mul_le_mul hlo (Nat.mul_le_mul_right _ b1)
      _ = a * 2 ^ K := h.symm
      _ < 2 ^ bitLen a * 2 ^ K := Nat.mul_lt_mul_of_pos_right a2 hK
      _ = 2 ^ (bitLen a + K) := (pow_add _ _ _).symm
  have := pow_two_lt_pow_two up
  have := pow_two_lt_pow_two lo
  omega

/-- Bound on the binary length of `a` when `a × 2 ^ K = m × b` and `m` has fewer
than 53 binary digits. -/
theorem bitLen_below (a b m K : Nat) (ha : a ≠ 0) (hb : b ≠ 0)
    (h : a * 2 ^ K = m * b) (hhi : m < 2 ^ 52) : bitLen a + K ≤ bitLen b + 52 := by
  obtain ⟨a1, a2, a3⟩ := bitLen_spec a ha
  obtain ⟨b1, b2, b3⟩ := bitLen_spec b hb
  have up : 2 ^ (bitLen a - 1 + K) < 2 ^ (52 + bitLen b) := by
    calc 2 ^ (bitLen a - 1 + K) = 2 ^ (bitLen a - 1) * 2 ^ K := pow_add _ _ _
      _ ≤ a * 2 ^ K := Nat.mul_le_mul_right _ a1
      _ = m * b := h
      _ < 2 ^ 52 * 2 ^ bitLen b := Nat.mul_lt_mul'' hhi b2
      _ = 2 ^ (52 + bitLen b) := (pow_add _ _ _).symm
  have := pow_two_lt_pow_two up
  omega

theorem scaleBy_neg (a b K : Nat) (hK : 0 < K) : scaleBy a b (-(K : Int)) = (a * 2 ^ K, b) := by
  have h : ¬ (0 ≤ -(K : Int)) := by omega
  simp [scaleBy, h]

theorem scaleBy_nat (a b E : Nat) : scaleBy a b (E : Int) = (a, b * 2 ^ E) := by
  simp [scaleBy]

theorem roundAt_exact (neg : Bool) (a b m : Nat) (e e1 : Int)
    (hm : m < 2 ^ 53) (he : -1074 ≤ e) (he' : e ≤ 971)
    (h1 : e1 = e ∨ (e1 < e ∧ e = -1074))
    (hpos : 0 < (scaleBy a b e).2) (hs : (scaleBy a b e).1 = m * (scaleBy a b e).2) :
    roundAt neg a b e1 = .finite neg m e := by
  have hc : (if e1 < -1074 then (-1074 : Int) else e1) = e := by
    rcases h1 with h1 | ⟨h1, h2⟩
    · subst h1
      simp only [if_neg (by omega : ¬ e1 < -1074)]
    · subst h2
      simp only [if_pos h1]
  unfold roundAt
  simp only [hc, hs]
  have hq : m * (scaleBy a b e).2 / (scaleBy a b e).2 = m := Nat.mul_div_cancel _ hpos
  have hr : m * (scaleBy a b e).2 % (scaleBy a b e).2 = 0 := Nat.mul_mod_left _ _
  simp only [hq, hr]
  have h3 : ¬ ((scaleBy a b e).2 < 2 * 0 ∨ (2 * 0 = (scaleBy a b e).2 ∧ m % 2 = 1)) := by
    omega
  simp only [if_neg h3]
  have h4 : ¬ (m = 2 ^ 53) := by omega
  simp only [if_neg h4]
  have h5 : ¬ ((971 : Int) < e) := by omega
  simp only [if_neg h5]

/-- Rounding the exact value of a canonical `float64` gives it back. -/
theorem round_exact (neg : Bool) (a b m : Nat) (e : Int) (ha : a ≠ 0) (hb : b ≠ 0)
    (hm : m < 2 ^ 53) (he : -1074 ≤ e) (he' : e ≤ 971) (hn : 2 ^ 52 ≤ m ∨ e = -1074)
    (hs : (scaleBy a b e).1 = m * (scaleBy a b e).2) :
    Float64.round neg a b = .finite neg m e := by
  unfold Float64.round
  simp only [if_neg ha]
  have hpos : 0 < (scaleBy a b e).2 := by
    unfold scaleBy
    split
    · exact Nat.mul_pos (Nat.pos_of_ne_zero hb) (Nat.two_pow_pos _)
    · exact Nat.pos_of_ne_zero hb
  apply roundAt_exact neg a b m e _ hm he he' _ hpos hs
  by_cases hsign : 0 ≤ e
  · -- a = m × (b × 2 ^ E)
    obtain ⟨E, rfl⟩ := Int.eq_ofNat_of_zero_le hsign
    rw [scaleBy_nat] at hs
    simp only at hs
    have hnorm : 2 ^ 52 ≤ m := by
      rcases hn with h | h
      · exact h
      · omega
    have hbr := bitLen_bracket a b m 0 E ha hb (by simpa using hs) hnorm hm
    rcases hbr with hbr | hbr
    · have e0 : (bitLen a : Int) - (bitLen b : Int) - 53 = (E : Int) := by omega
      rw [e0, scaleBy_nat]
      simp only
      rw [hs, Nat.mul_div_cancel _ (Nat.mul_pos (Nat.pos_of_ne_zero hb) (Nat.two_pow_pos _))]
      simp only [if_neg (by omega : ¬ 2 ^ 53 ≤ m)]
      first | exact Or.inl rfl | exact Or.inl trivial
    · cases E with
      | zero =>
        have e0 : (bitLen a : Int) - (bitLen b : Int) - 53 = -((1 : Nat) : Int) := by omega
        rw [e0, scaleBy_neg a b 1 (by norm_num)]
        simp only
        have hq : a * 2 ^ 1 / b = 2 * m := by
          rw [hs]
          simp only [pow_zero, mul_one, pow_one]
          rw [show m * b * 2 = 2 * m * b by ring]
          exact Nat.mul_div_cancel _ (Nat.pos_of_ne_zero hb)
        rw [hq]
        simp only [if_pos (by omega : 2 ^ 53 ≤ 2 * m)]
        left
        simp
      | succ E =>
        have e0 : (bitLen a : Int) - (bitLen b : Int) - 53 = ((E : Nat) : Int) := by
          push_cast at *
          omega
        rw [e0, scaleBy_nat]
        simp only
        have hq : a / (b * 2 ^ E) = 2 * m := by
          rw [hs, pow_succ]
          rw [show m * (b * (2 ^ E * 2)) = 2 * m * (b * 2 ^ E) by ring]
          exact Nat.mul_div_cancel _ (Nat.mul_pos (Nat.pos_of_ne_zero hb) (Nat.two_pow_pos _))
        rw [hq]
        simp only [if_pos (by omega : 2 ^ 53 ≤ 2 * m)]
        left
        push_cast
        ring
  · -- a × 2 ^ K = m × b
    have hK : ∃ K : Nat, 0 < K ∧ e = -(K : Int) := ⟨(-e).toNat, by omega, by omega⟩
    obtain ⟨K, hK0, rfl⟩ := hK
    rw [scaleBy_neg a b K hK0] at hs
    simp only at hs
    rcases hn with hnorm | hsub
    · have hbr := bitLen_bracket a b m K 0 ha hb (by simpa using hs) hnorm hm
      rcases hbr with hbr | hbr
      · have e0 : (bitLen a : Int) - (bitLen b : Int) - 53 = -(K : Int) := by omega
        rw [e0, scaleBy_neg a b K hK0]
        simp only
        rw [hs, Nat.mul_div_cancel _ (Nat.pos_of_ne_zero hb)]
        simp only [if_neg (by omega : ¬ 2 ^ 53 ≤ m)]
        first | exact Or.inl rfl | exact Or.inl trivial
      · have e0 : (bitLen a : Int) - (bitLen b : Int) - 53 = -((K + 1 : Nat) : Int) := by
          push_cast
          omega
        rw [e0, scaleBy_neg a b (K + 1) (by omega)]
        simp only
        have hq : a * 2 ^ (K + 1) / b = 2 * m := by
          rw [pow_succ, ← Nat.mul_assoc, hs]
          rw [show m * b * 2 = 2 * m * b by ring]
          exact Nat.mul_div_cancel _ (Nat.pos_of_ne_zero hb)
        rw [hq]
        simp only [if_pos (by omega : 2 ^ 53 ≤ 2 * m)]
        left
        push_cast
        ring
    · by_cases hnorm : 2 ^ 52 ≤ m
      · have hbr := bitLen_bracket a b m K 0 ha hb (by simpa using hs) hnorm hm
        rcases hbr with hbr | hbr
        · have e0 : (bitLen a : Int) - (bitLen b : Int) - 53 = -(K : Int) := by omega
          rw [e0, scaleBy_neg a b K hK0]
          simp only
          rw [hs, Nat.mul_div_cancel _ (Nat.pos_of_ne_zero hb)]
          simp only [if_neg (by omega : ¬ 2 ^ 53 ≤ m)]
          first | exact Or.inl rfl | exact Or.inl trivial
        · have e0 : (bitLen a : Int) - (bitLen b : Int) - 53 = -((K + 1 : Nat) : Int) := by
            push_cast
            omega
          rw [e0, scaleBy_neg a b (K + 1) (by omega)]
          simp only
          have hq : a * 2 ^ (K + 1) / b = 2 * m := by
            rw [pow_succ, ← Nat.mul_assoc, hs]
            rw [show m * b * 2 = 2 * m * b by ring]
            exact Nat.mul_div_cancel _ (Nat.pos_of_ne_zero hb)
          rw [hq]
          simp only [if_pos (by omega : 2 ^ 53 ≤ 2 * m)]
          left
          push_cast
          ring
      · have hbl := bitLen_below a b m K ha hb hs (by omega)
        have hle : (if 2 ^ 53 ≤ (scaleBy a b ((bitLen a : Int) - (bitLen b : Int) - 53)).1
              / (scaleBy a b ((bitLen a : Int) - (bitLen b : Int) - 53)).2
            then (bitLen a : Int) - (bitLen b : Int) - 53 + 1
            else (bitLen a : Int) - (bitLen b : Int) - 53) ≤ -(K : Int) := by
          split <;> omega
        rcases lt_or_eq_of_le hle with h | h
        · exact Or.inr ⟨h, hsub⟩
        · exact Or.inl h

/-- The exact literal of a canonical non-zero `float64` reads back as it. -/
theorem exactLiteral_reads_back (neg : Bool) (m : Nat) (e : Int) (hm0 : m ≠ 0)
    (hm : m < 2 ^ 53) (he : -1074 ≤ e) (he' : e ≤ 971) (hn : 2 ^ 52 ≤ m ∨ e = -1074) :
    (exactLiteral neg m e).toFloat64 = .finite neg m e := by
  unfold exactLiteral
  by_cases hsign : 0 ≤ e
  · simp only [if_pos hsign, JNumber.toFloat64, JNumber.fraction]
    obtain ⟨E, rfl⟩ := Int.eq_ofNat_of_zero_le hsign
    apply round_exact neg _ 1 m _ _ (by norm_num) hm he he' hn
    · rw [scaleBy_nat]
      simp
    · simp only [Int.toNat_ofNat]
      exact Nat.mul_ne_zero hm0 (Nat.pos_iff_ne_zero.mp (Nat.two_pow_pos _))
  · simp only [if_neg hsign, JNumber.toFloat64, JNumber.fraction]
    have hK : ∃ K : Nat, 0 < K ∧ e = -(K : Int) := ⟨(-e).toNat, by omega, by omega⟩
    obtain ⟨K, hK0, rfl⟩ := hK
    have h1 : (- -(K : Int)).toNat = K := by simp
    simp only [h1]
    apply round_exact neg _ _ m _ _ _ hm he he' hn
    · rw [scaleBy_neg _ _ K hK0]
      simp only
      rw [show (10 : Nat) = 5 * 2 by norm_num, Nat.mul_pow]
      ring
    · exact Nat.mul_ne_zero hm0 (by positivity)
    · positivity

theorem shortestAux_reads_back (neg : Bool) (m : Nat) (e : Int) (num den : Nat) (k : Int)
    (hm0 : m ≠ 0) (hm : m < 2 ^ 53) (he : -1074 ≤ e) (he' : e ≤ 971)
    (hn : 2 ^ 52 ≤ m ∨ e = -1074) (fuel : Nat) :
    ∀ n : Nat, (shortestAux neg m e num den k fuel n).toFloat64 = .finite neg m e := by
  induction fuel with
  | zero =>
    intro n
    simp only [shortestAux]
    exact exactLiteral_reads_back neg m e hm0 hm he he' hn
  | succ fuel ih =>
    intro n
    simp only [shortestAux]
    split_ifs with h1 h2 h3 h4 h5 h6
    all_goals first
      | exact ih (n + 1)
      | exact of_decide_eq_true h2
      | exact of_decide_eq_true h3.1
      | exact of_decide_eq_true h3.2
      | exact of_decide_eq_true h4
      | exact of_decide_eq_true h5
      | exact of_decide_eq_true h6

/-- A finite canonical `float64` is written as a literal that reads back as it. -/
theorem toJNumber_reads_back (neg : Bool) (m : Nat) (e : Int)
    (hc : (Float64.finite neg m e).isCanonical = true) :
    ∃ n, (Float64.finite neg m e).toJNumber = some n ∧ n.toFloat64 = .finite neg m e := by
  simp only [Float64.isCanonical, Bool.and_eq_true, Bool.or_eq_true, decide_eq_true_eq] at hc
  obtain ⟨⟨⟨hm, he⟩, he'⟩, hn⟩ := hc
  by_cases hm0 : m = 0
  · subst hm0
    have he0 : e = -1074 := by
      rcases hn with h | h
      · omega
      · exact h
    subst he0
    exact ⟨.int neg 0, by simp [Float64.toJNumber], by
      simp [JNumber.toFloat64, JNumber.fraction, Float64.round]⟩
  · refine ⟨shortestAux neg m e (scaleBy m 1 (-e)).1 (scaleBy m 1 (-e)).2
        (decExponent (scaleBy m 1 (-e)).1 (scaleBy m 1 (-e)).2) 17 1, ?_, ?_⟩
    · simp only [Float64.toJNumber, if_neg hm0]
    · exact shortestAux_reads_back neg m e _ _ _ hm0 hm he he' hn 17 1

/-! ### The field set of the payload -/

theorem credentialFields_databricks (k : Constants) (token catalog schema : GoString) :
    (credentialFields k token catalog schema "databricks").map Prod.fst
      = ["catalog", "schema", "token"] := by
  have h1 : strLt "token" "catalog" = false := by decide
  have h2 : strLt "schema" "catalog" = false := by decide
  have h3 : strLt "schema" "token" = true := by decide
  have n1 : ("token" : GoString) ≠ "catalog" := by decide
  have n2 : ("schema" : GoString) ≠ "catalog" := by decide
  have n3 : ("schema" : GoString) ≠ "token" := by decide
  have a1 : ("databricks" : GoString) ≠ "spark" := by decide
  simp [credentialFields, mapSet, h1, h2, h3, n1, n2, n3, a1]

theorem credentialFields_spark (k : Constants) (token catalog schema : GoString) :
    (credentialFields k token catalog schema "spark").map Prod.fst
      = ["schema", "threads", "token"] := by
  have h1 : strLt "schema" "token" = true := by decide
  have h2 : strLt "threads" "schema" = false := by decide
  have h3 : strLt "threads" "token" = true := by decide
  have n1 : ("schema" : GoString) ≠ "token" := by decide
  have n2 : ("threads" : GoString) ≠ "schema" := by decide
  have n3 : ("threads" : GoString) ≠ "token" := by decide
  have a1 : ("spark" : GoString) ≠ "databricks" := by decide
  simp [credentialFields, mapSet, h1, h2, h3, n1, n2, n3, a1]

theorem credentialFields_other (k : Constants) (token catalog schema adapterType : GoString)
    (h1 : adapterType ≠ "databricks") (h2 : adapterType ≠ "spark") :
    credentialFields k token catalog schema adapterType = [] := by
  simp [credentialFields, h1, h2]

/-- C1: with adapter type "databricks", the `Fields` map of the payload that
`CreateDatabricksCredential` builds has exactly the three keys catalog, token
and schema, so no threads entry; the JSON written for it has a `fields` object
with these three members. -/
theorem C1_databricks_field_set (k : Constants) (accountID projectId : Int)
    (type_ targetName : GoString) (adapterId : Int) (token catalog schema : GoString) :
    (∀ key : GoString,
      key ∈ mapKeys (newDatabricksCredential k accountID projectId type_ targetName adapterId
          token catalog schema "databricks").Credential_Details.Fields
        ↔ key = "catalog" ∨ key = "token" ∨ key = "schema")
    ∧ (mapKeys (newDatabricksCredential k accountID projectId type_ targetName adapterId
          token catalog schema "databricks").Credential_Details.Fields).length = 3
    ∧ ("threads" : GoString) ∉ mapKeys (newDatabricksCredential k accountID projectId type_ targetName
          adapterId token catalog schema "databricks").Credential_Details.Fields
    ∧ ∃ data fields,
        marshalCredential (newDatabricksCredential k accountID projectId type_ targetName
          adapterId token catalog schema "databricks") = .ok data
        ∧ (data.member "credential_details").bind (Json.member "fields") = some fields
        ∧ fields.keys = ["catalog", "schema", "token"] := by
  have hk := credentialFields_databricks k token catalog schema
  simp only [newDatabricksCredential, mapKeys, Option.getD_some, hk]
  refine ⟨?_, rfl, by decide, ?_⟩
  · intro key
    simp
    tauto
  · have h1 : strLt "token" "catalog" = false := by decide
    have h2 : strLt "schema" "catalog" = false := by decide
    have h3 : strLt "schema" "token" = true := by decide
    have n1 : ("token" : GoString) ≠ "catalog" := by decide
    have n2 : ("schema" : GoString) ≠ "catalog" := by decide
    have n3 : ("schema" : GoString) ≠ "token" := by decide
    have a1 : ("databricks" : GoString) ≠ "spark" := by decide
    simp [marshalCredential, encDetails, encFields, credentialFields, mapSet, h1, h2, h3,
      n1, n2, n3, a1, encFieldEntries, encField, encAny, Json.member, Json.keys, toText_ofText]

/-- C2: with adapter type "spark", the `Fields` map of the payload that
`CreateDatabricksCredential` builds has exactly the three keys token, schema
and threads, so no catalog entry; the JSON written for it has a `fields`
object with these three members. -/
theorem C2_spark_field_set (k : Constants) (accountID projectId : Int)
    (type_ targetName : GoString) (adapterId : Int) (token catalog schema : GoString) :
    (∀ key : GoString,
      key ∈ mapKeys (newDatabricksCredential k accountID projectId type_ targetName adapterId
          token catalog schema "spark").Credential_Details.Fields
        ↔ key = "token" ∨ key = "schema" ∨ key = "threads")
    ∧ (mapKeys (newDatabricksCredential k accountID projectId type_ targetName adapterId
          token catalog schema "spark").Credential_Details.Fields).length = 3
    ∧ ("catalog" : GoString) ∉ mapKeys (newDatabricksCredential k accountID projectId type_ targetName
          adapterId token catalog schema "spark").Credential_Details.Fields
    ∧ ∃ data fields,
        marshalCredential (newDatabricksCredential k accountID projectId type_ targetName
          adapterId token catalog schema "spark") = .ok data
        ∧ (data.member "credential_details").bind (Json.member "fields") = some fields
        ∧ fields.keys = ["schema", "threads", "token"] := by
  have hk := credentialFields_spark k token catalog schema
  simp only [newDatabricksCredential, mapKeys, Option.getD_some, hk]
  refine ⟨?_, rfl, by decide, ?_⟩
  · intro key
    simp
    tauto
  · have h1 : strLt "schema" "token" = true := by decide
    have h2 : strLt "threads" "schema" = false := by decide
    have h3 : strLt "threads" "token" = true := by decide
    have n1 : ("schema" : GoString) ≠ "token" := by decide
    have n2 : ("threads" : GoString) ≠ "schema" := by decide
    have n3 : ("threads" : GoString) ≠ "token" := by decide
    have a1 : ("spark" : GoString) ≠ "databricks" := by decide
    simp [marshalCredential, encDetails, encFields, credentialFields, mapSet, h1, h2, h3,
      n1, n2, n3, a1, encFieldEntries, encField, encAny, Json.member, Json.keys,
      toText_ofText]

/-- C3: with an adapter type other than "databricks" and "spark", the `Fields`
map of the payload is the empty (non-nil) map, and marshalling the payload
succeeds, writing an empty `fields` object. -/
theorem C3_other_adapter_empty_fields (k : Constants) (accountID projectId : Int)
    (type_ targetName : GoString) (adapterId : Int)
    (token catalog schema adapterType : GoString)
    (h1 : adapterType ≠ "databricks") (h2 : adapterType ≠ "spark") :
    (newDatabricksCredential k accountID projectId type_ targetName adapterId
        token catalog schema adapterType).Credential_Details.Fields = some []
    ∧ ∃ data,
        marshalCredential (newDatabricksCredential k accountID projectId type_ targetName
          adapterId token catalog schema adapterType) = .ok data
        ∧ (data.member "credential_details").bind (Json.member "fields") = some (.obj []) := by
  have hk := credentialFields_other k token catalog schema adapterType h1 h2
  simp [newDatabricksCredential, hk, marshalCredential, encDetails, encFields, encFieldEntries,
    Json.member]

/-- Witness of C3 at the case variant "Databricks" of the adapter type. -/
theorem C3_other_adapter_empty_fields_witness :
    ("Databricks" : GoString) ≠ "databricks" ∧ ("Databricks" : GoString) ≠ "spark"
    ∧ ((newDatabricksCredential ⟨1, 6⟩ 10 20 "adapter" "default" 30
          "tok" "cat" "sch" "Databricks").Credential_Details.Fields = some []
      ∧ ∃ data,
          marshalCredential (newDatabricksCredential ⟨1, 6⟩ 10 20 "adapter" "default" 30
            "tok" "cat" "sch" "Databricks") = .ok data
          ∧ (data.member "credential_details").bind (Json.member "fields") = some (.obj [])) :=
  ⟨by decide, by decide,
    C3_other_adapter_empty_fields ⟨1, 6⟩ 10 20 "adapter" "default" 30 "tok" "cat" "sch"
      "Databricks" (by decide) (by decide)⟩

/-- C4: whatever the adapter type, token, catalog and schema, the payload has
`State = STATE_ACTIVE`, `Threads = NUM_THREADS_CREDENTIAL`, the target name and
the adapter id of the call. -/
theorem C4_outer_fields_unconditional (k : Constants) (accountID projectId : Int)
    (type_ targetName : GoString) (adapterId : Int)
    (token catalog schema adapterType : GoString) :
    (newDatabricksCredential k accountID projectId type_ targetName adapterId
        token catalog schema adapterType).State = k.STATE_ACTIVE
    ∧ (newDatabricksCredential k accountID projectId type_ targetName adapterId
        token catalog schema adapterType).Threads = k.NUM_THREADS_CREDENTIAL
    ∧ (newDatabricksCredential k accountID projectId type_ targetName adapterId
        token catalog schema adapterType).Target_Name = targetName
    ∧ (newDatabricksCredential k accountID projectId type_ targetName adapterId
        token catalog schema adapterType).Adapter_Id = adapterId :=
  ⟨rfl, rfl, rfl, rfl⟩

/-! ### Transport: what is sent, and how errors come back -/

theorem Get_eq {σ S : Type} (c : Client σ S) (projectId credentialId : Int) (w : σ) :
    GetDatabricksCredential c projectId credentialId w
      = (match NewRequest c "GET"
            (c.HostURL ++ "/v3/accounts/" ++ fmtD c.AccountID ++ "/projects/" ++ fmtD projectId
              ++ "/credentials/" ++ fmtD credentialId ++ "/?include_related=[adapter]") none with
         | .error err => (.error err, w)
         | .ok req => sendAndDecode c req w) := rfl

theorem Create_eq {σ S : Type} (c : Client σ S) (k : Constants) (projectId : Int)
    (type_ targetName : GoString) (adapterId : Int) (token catalog schema adapterType : GoString)
    (w : σ) :
    CreateDatabricksCredential c k projectId type_ targetName adapterId token catalog schema
        adapterType w
      = (match marshalCredential (newDatabricksCredential k c.AccountID projectId type_
            targetName adapterId token catalog schema adapterType) with
         | .error err => (.error err, w)
         | .ok data =>
           match NewRequest c "POST"
              (c.HostURL ++ "/v3/accounts/" ++ fmtD c.AccountID ++ "/projects/"
                ++ fmtD projectId ++ "/credentials/") (some data) with
           | .error err => (.error err, w)
           | .ok req => sendAndDecode c req w) := rfl

theorem Update_eq {σ S : Type} (c : Client σ S) (projectId credentialId : Int)
    (databricksCredential : DatabricksCredential) (w : σ) :
    UpdateDatabricksCredential c projectId credentialId databricksCredential w
      = (match marshalCredential databricksCredential with
         | .error err => (.error err, w)
         | .ok data =>
           match NewRequest c "POST"
              (c.HostURL ++ "/v3/accounts/" ++ fmtD c.AccountID ++ "/projects/"
                ++ fmtD projectId ++ "/credentials/" ++ fmtD credentialId ++ "/") (some data) with
           | .error err => (.error err, w)
           | .ok req => sendAndDecode c req w) := rfl

theorem sendAndDecode_journaled {σ S : Type} (c : Client σ S) (req : Request) (w : σ)
    (log : List Request) :
    sendAndDecode c.journaled req (w, log)
      = ((sendAndDecode c req w).1, ((sendAndDecode c req w).2, log ++ [req])) := by
  unfold sendAndDecode
  simp only [Client.journaled]
  rcases h : c.doRequest req w with ⟨r, w1⟩
  cases r with
  | error e => rfl
  | ok body =>
    simp only []
    cases unmarshalResponse c.status body <;> rfl

theorem sendAndDecode_surfaces {σ S : Type} (c : Client σ S) (req : Request) (w : σ) :
    SurfacesErrors c w (.ok req) (sendAndDecode c req w) [req] := by
  unfold SurfacesErrors sendAndDecode
  rcases h : c.doRequest req w with ⟨r, w1⟩
  refine ⟨?_, ?_⟩
  · intro e he
    cases he
  · intro req' hreq
    cases hreq
    refine ⟨rfl, ?_, ?_, ?_⟩
    · intro e w2 hdo
      rw [h] at hdo
      cases hdo
      rfl
    · intro body w2 d hdo hdec
      rw [h] at hdo
      cases hdo
      simp only [hdec]
    · intro body w2 resp hdo hdec
      rw [h] at hdo
      cases hdo
      simp only [hdec]

theorem surfaces_of_build_error {σ S : Type} (c : Client σ S) (w : σ) (e : GoError) :
    SurfacesErrors c w (.error e) (.error e, w) [] := by
  refine ⟨?_, ?_⟩
  · intro e' he
    cases he
    exact ⟨rfl, rfl⟩
  · intro req hreq
    cases hreq

theorem NewRequest_journaled {σ S : Type} (c : Client σ S) (method : String) (url : GoString)
    (body : Option Json) :
    NewRequest c.journaled method url body = NewRequest c method url body := rfl

theorem journaled_HostURL {σ S : Type} (c : Client σ S) : c.journaled.HostURL = c.HostURL := rfl

theorem journaled_AccountID {σ S : Type} (c : Client σ S) :
    c.journaled.AccountID = c.AccountID := rfl

/-- C8: when the DELETE request is built and `doRequest` returns a body without
error, `DeleteDatabricksCredential` returns the empty string and a nil error,
whatever the body is. -/
theorem C8_delete_returns_empty_string {σ S : Type} (c : Client σ S)
    (credentialId projectId : GoString) (w w1 : σ) (req : Request) (body : Body)
    (hreq : NewRequest c "DELETE"
      (c.HostURL ++ "/v3/accounts/" ++ fmtD c.AccountID ++ "/projects/" ++ projectId
        ++ "/credentials/" ++ credentialId ++ "/") none = .ok req)
    (hdo : c.doRequest req w = (.ok body, w1)) :
    DeleteDatabricksCredential c credentialId projectId w = ((("" : GoString), none), w1) := by
  simp [DeleteDatabricksCredential, hreq, hdo]

/-- Witness of C8: a client whose `doRequest` answers a body that is not even
JSON text. -/
theorem C8_delete_returns_empty_string_witness :
    NewRequest (fixedClient (.ok (.malformed "<html>"))) "DELETE"
        ((fixedClient (.ok (.malformed "<html>"))).HostURL ++ "/v3/accounts/"
          ++ fmtD (fixedClient (.ok (.malformed "<html>"))).AccountID ++ "/projects/" ++ "9"
          ++ "/credentials/" ++ "42" ++ "/") none = .ok deleteRequest42
    ∧ (fixedClient (.ok (.malformed "<html>"))).doRequest deleteRequest42 ()
        = (.ok (.malformed "<html>"), ())
    ∧ DeleteDatabricksCredential (fixedClient (.ok (.malformed "<html>"))) "42" "9" ()
        = ((("" : GoString), none), ()) :=
  ⟨rfl, rfl,
    C8_delete_returns_empty_string (fixedClient (.ok (.malformed "<html>"))) "42" "9" () ()
      deleteRequest42 (.malformed "<html>") rfl rfl⟩

/-- C9: each of the four operations surfaces its errors unchanged, after one
call of `doRequest`. For Get, Create and Update (`SurfacesErrors`), with the
request built from this call's URL and, for Create and Update, this call's
marshalled body: when marshalling or `http.NewRequest` fails with `e`, the
operation returns `e` and hands nothing to `doRequest`; otherwise it hands
exactly the built request to `doRequest`, once; if `doRequest` returns the
error `e` the operation returns exactly `e`; if the decoder rejects the
response body with `d` the operation returns exactly `d`; and if the body
decodes the operation returns the decoded data without error, so that there is
no other error. Delete likewise, with the empty string in every case and no
decoding. Journaling does not change the result of a run. -/
theorem C9_errors_surface_unchanged {σ S : Type} (c : Client σ S) (k : Constants)
    (projectId credentialId adapterId : Int)
    (type_ targetName token catalog schema adapterType : GoString)
    (databricksCredential : DatabricksCredential) (delCredentialId delProjectId : GoString)
    (w : σ) :
    (SurfacesErrors c w
        (NewRequest c "GET"
          (c.HostURL ++ "/v3/accounts/" ++ fmtD c.AccountID ++ "/projects/" ++ fmtD projectId
            ++ "/credentials/" ++ fmtD credentialId ++ "/?include_related=[adapter]") none)
        (GetDatabricksCredential c projectId credentialId w)
        (GetDatabricksCredential c.journaled projectId credentialId (w, [])).2.2
      ∧ (GetDatabricksCredential c.journaled projectId credentialId (w, [])).1
          = (GetDatabricksCredential c projectId credentialId w).1)
    ∧ (SurfacesErrors c w
        ((marshalCredential (newDatabricksCredential k c.AccountID projectId type_ targetName
            adapterId token catalog schema adapterType)).bind
          (fun data => NewRequest c "POST"
            (c.HostURL ++ "/v3/accounts/" ++ fmtD c.AccountID ++ "/projects/"
              ++ fmtD projectId ++ "/credentials/") (some data)))
        (CreateDatabricksCredential c k projectId type_ targetName adapterId token
            catalog schema adapterType w)
        (CreateDatabricksCredential c.journaled k projectId type_ targetName adapterId token
            catalog schema adapterType (w, [])).2.2
      ∧ (CreateDatabricksCredential c.journaled k projectId type_ targetName adapterId token
            catalog schema adapterType (w, [])).1
          = (CreateDatabricksCredential c k projectId type_ targetName adapterId token
            catalog schema adapterType w).1)
    ∧ (SurfacesErrors c w
        ((marshalCredential databricksCredential).bind
          (fun data => NewRequest c "POST"
            (c.HostURL ++ "/v3/accounts/" ++ fmtD c.AccountID ++ "/projects/"
              ++ fmtD projectId ++ "/credentials/" ++ fmtD credentialId ++ "/") (some data)))
        (UpdateDatabricksCredential c projectId credentialId databricksCredential w)
        (UpdateDatabricksCredential c.journaled projectId credentialId databricksCredential
          (w, [])).2.2
      ∧ (UpdateDatabricksCredential c.journaled projectId credentialId databricksCredential
          (w, [])).1
          = (UpdateDatabricksCredential c projectId credentialId databricksCredential w).1)
    ∧ ((∀ e, NewRequest c "DELETE"
            (c.HostURL ++ "/v3/accounts/" ++ fmtD c.AccountID ++ "/projects/" ++ delProjectId
              ++ "/credentials/" ++ delCredentialId ++ "/") none = .error e →
          DeleteDatabricksCredential c delCredentialId delProjectId w = ((("" : GoString), some e), w)
          ∧ (DeleteDatabricksCredential c.journaled delCredentialId delProjectId
              (w, [])).2.2 = [])
      ∧ (∀ req, NewRequest c "DELETE"
            (c.HostURL ++ "/v3/accounts/" ++ fmtD c.AccountID ++ "/projects/" ++ delProjectId
              ++ "/credentials/" ++ delCredentialId ++ "/") none = .ok req →
          (DeleteDatabricksCredential c.journaled delCredentialId delProjectId
              (w, [])).2.2 = [req]
          ∧ (∀ e w1, c.doRequest req w = (.error e, w1) →
              DeleteDatabricksCredential c delCredentialId delProjectId w
                = ((("" : GoString), some e), w1))
          ∧ (∀ body w1, c.doRequest req w = (.ok body, w1) →
              DeleteDatabricksCredential c delCredentialId delProjectId w
                = ((("" : GoString), none), w1)))
      ∧ (DeleteDatabricksCredential c.journaled delCredentialId delProjectId (w, [])).1
          = (DeleteDatabricksCredential c delCredentialId delProjectId w).1) := by
  refine ⟨?_, ?_, ?_, ?_⟩
  · simp only [Get_eq, NewRequest_journaled, journaled_HostURL, journaled_AccountID]
    cases hn : NewRequest c "GET" _ none with
    | error e => exact ⟨surfaces_of_build_error c w e, rfl⟩
    | ok req =>
      simp only [sendAndDecode_journaled, List.nil_append]
      exact ⟨sendAndDecode_surfaces c req w, trivial⟩
  · simp only [Create_eq, NewRequest_journaled, journaled_HostURL, journaled_AccountID]
    cases hm : marshalCredential _ with
    | error e => exact ⟨surfaces_of_build_error c w e, rfl⟩
    | ok data =>
      simp only [Except.bind]
      cases hn : NewRequest c "POST" _ (some data) with
      | error e => exact ⟨surfaces_of_build_error c w e, rfl⟩
      | ok req =>
        simp only [sendAndDecode_journaled, List.nil_append]
        exact ⟨sendAndDecode_surfaces c req w, trivial⟩
  · simp only [Update_eq, NewRequest_journaled, journaled_HostURL, journaled_AccountID]
    cases hm : marshalCredential _ with
    | error e => exact ⟨surfaces_of_build_error c w e, rfl⟩
    | ok data =>
      simp only [Except.bind]
      cases hn : NewRequest c "POST" _ (some data) with
      | error e => exact ⟨surfaces_of_build_error c w e, rfl⟩
      | ok req =>
        simp only [sendAndDecode_journaled, List.nil_append]
        exact ⟨sendAndDecode_surfaces c req w, trivial⟩
  · simp only [DeleteDatabricksCredential, NewRequest_journaled, journaled_HostURL,
      journaled_AccountID]
    cases hn : NewRequest c "DELETE" _ none with
    | error e =>
      refine ⟨?_, ?_, rfl⟩
      · intro e' he
        cases he
        exact ⟨rfl, rfl⟩
      · intro req hreq
        cases hreq
    | ok req =>
      simp only [Client.journaled]
      rcases h : c.doRequest req w with ⟨r, w1⟩
      cases r with
      | error e =>
        refine ⟨?_, ?_, rfl⟩
        · intro e' he
          cases he
        · intro req' hreq
          cases hreq
          refine ⟨rfl, ?_, ?_⟩
          · intro e' w2 hdo
            rw [h] at hdo
            cases hdo
            rfl
          · intro body w2 hdo
            rw [h] at hdo
            cases hdo
      | ok body =>
        refine ⟨?_, ?_, rfl⟩
        · intro e' he
          cases he
        · intro req' hreq
          cases hreq
          refine ⟨rfl, ?_, ?_⟩
          · intro e' w2 hdo
            rw [h] at hdo
            cases hdo
          · intro body' w2 hdo
            rw [h] at hdo
            cases hdo
            rfl

/-- Witness of C9: through a client whose `doRequest` fails with a timeout, Get
hands over its one request and returns exactly that error. -/
theorem C9_errors_surface_unchanged_witness :
    (GetDatabricksCredential (fixedClient (.error (.transport "timeout"))).journaled 9 42
        ((), [])).2.2 = [getRequest42]
    ∧ GetDatabricksCredential (fixedClient (.error (.transport "timeout"))) 9 42 ()
        = (.error (.transport "timeout"), ()) :=
  ⟨((C9_errors_surface_unchanged (fixedClient (.error (.transport "timeout"))) ⟨1, 6⟩ 9 42 30
      "adapter" "default" "tok" "cat" "sch" "spark" zeroCredential "42" "9" ()).1.1.2
      getRequest42 rfl).1,
    ((C9_errors_surface_unchanged (fixedClient (.error (.transport "timeout"))) ⟨1, 6⟩ 9 42 30
      "adapter" "default" "tok" "cat" "sch" "spark" zeroCredential "42" "9" ()).1.1.2
      getRequest42 rfl).2.1 (.transport "timeout") () rfl⟩

/-- C10: the requests of the four operations. Get hands `doRequest` one GET
request for `HostURL/v3/accounts/a/projects/p/credentials/k/?include_related=[adapter]`,
Create one POST request for `HostURL/v3/accounts/a/projects/p/credentials/`,
Update one POST request for `HostURL/v3/accounts/a/projects/p/credentials/k/`
and Delete one DELETE request for `HostURL/v3/accounts/a/projects/p/credentials/k/`,
the integers written in decimal and the strings of Delete as they are; nothing
is handed over when the URL does not parse or the body cannot be marshalled. -/
theorem C10_request_paths {σ S : Type} (c : Client σ S) (k : Constants)
    (projectId credentialId adapterId : Int)
    (type_ targetName token catalog schema adapterType : GoString)
    (databricksCredential : DatabricksCredential) (delCredentialId delProjectId : GoString)
    (w : σ) :
    (GetDatabricksCredential c.journaled projectId credentialId (w, [])).2.2
        = (if c.urlError (c.HostURL ++ "/v3/accounts/" ++ toString c.AccountID ++ "/projects/"
              ++ toString projectId ++ "/credentials/" ++ toString credentialId
              ++ "/?include_related=[adapter]") = none
           then [{ method := "GET",
                   url := c.HostURL ++ "/v3/accounts/" ++ toString c.AccountID ++ "/projects/"
                     ++ toString projectId ++ "/credentials/" ++ toString credentialId
                     ++ "/?include_related=[adapter]",
                   body := none }]
           else [])
    ∧ (CreateDatabricksCredential c.journaled k projectId type_ targetName adapterId token
          catalog schema adapterType (w, [])).2.2
        = (match marshalCredential (newDatabricksCredential k c.AccountID projectId type_
              targetName adapterId token catalog schema adapterType) with
           | .error _ => []
           | .ok data =>
             if c.urlError (c.HostURL ++ "/v3/accounts/" ++ toString c.AccountID
                 ++ "/projects/" ++ toString projectId ++ "/credentials/") = none
             then [{ method := "POST",
                     url := c.HostURL ++ "/v3/accounts/" ++ toString c.AccountID
                       ++ "/projects/" ++ toString projectId ++ "/credentials/",
                     body := some data }]
             else [])
    ∧ (UpdateDatabricksCredential c.journaled projectId credentialId databricksCredential
          (w, [])).2.2
        = (match marshalCredential databricksCredential with
           | .error _ => []
           | .ok data =>
             if c.urlError (c.HostURL ++ "/v3/accounts/" ++ toString c.AccountID
                 ++ "/projects/" ++ toString projectId ++ "/credentials/"
                 ++ toString credentialId ++ "/") = none
             then [{ method := "POST",
                     url := c.HostURL ++ "/v3/accounts/" ++ toString c.AccountID
                       ++ "/projects/" ++ toString projectId ++ "/credentials/"
                       ++ toString credentialId ++ "/",
                     body := some data }]
             else [])
    ∧ (DeleteDatabricksCredential c.journaled delCredentialId delProjectId (w, [])).2.2
        = (if c.urlError (c.HostURL ++ "/v3/accounts/" ++ toString c.AccountID ++ "/projects/"
              ++ delProjectId ++ "/credentials/" ++ delCredentialId ++ "/") = none
           then [{ method := "DELETE",
                   url := c.HostURL ++ "/v3/accounts/" ++ toString c.AccountID ++ "/projects/"
                     ++ delProjectId ++ "/credentials/" ++ delCredentialId ++ "/",
                   body := none }]
           else []) := by
  refine ⟨?_, ?_, ?_, ?_⟩
  · simp only [Get_eq, NewRequest, journaled_HostURL, journaled_AccountID, fmtD]
    rw [show c.journaled.urlError = c.urlError from rfl]
    cases hu : c.urlError _ with
    | some e => simp
    | none => simp [sendAndDecode_journaled]
  · simp only [Create_eq, NewRequest, journaled_HostURL, journaled_AccountID,
      fmtD]
    rw [show c.journaled.urlError = c.urlError from rfl]
    cases hm : marshalCredential _ with
    | error e => rfl
    | ok data =>
      simp only []
      cases hu : c.urlError _ with
      | some e => simp
      | none => simp [sendAndDecode_journaled]
  · simp only [Update_eq, NewRequest, journaled_HostURL, journaled_AccountID,
      fmtD]
    rw [show c.journaled.urlError = c.urlError from rfl]
    cases hm : marshalCredential _ with
    | error e => rfl
    | ok data =>
      simp only []
      cases hu : c.urlError _ with
      | some e => simp
      | none => simp [sendAndDecode_journaled]
  · simp only [DeleteDatabricksCredential, NewRequest, journaled_HostURL, journaled_AccountID,
      fmtD]
    rw [show c.journaled.urlError = c.urlError from rfl]
    cases hu : c.urlError _ with
    | some e => simp
    | none =>
      simp only [Client.journaled]
      rcases h : c.doRequest _ w with ⟨r, w1⟩
      cases r <;> simp

/-- Witness of C10: Get of credential 42 of project 9 on account 7. -/
theorem C10_request_paths_witness :
    (GetDatabricksCredential (fixedClient (.ok nullIdEnvelope)).journaled 9 42 ((), [])).2.2
      = [{ method := "GET",
           url := "https://cloud.getdbt.com/api/v3/accounts/7/projects/9/credentials/42/?include_related=[adapter]",
           body := none }] :=
  (C10_request_paths (fixedClient (.ok nullIdEnvelope)) ⟨1, 6⟩ 9 42 30
    "adapter" "default" "tok" "cat" "sch" "spark" zeroCredential "42" "9" ()).1.trans rfl

/-! ### What Update writes -/

/-- C6, counterexample: for a credential with an empty token, the body that
`UpdateDatabricksCredential` sends has an `unencrypted_credential_details`
object without a `token` member. -/
theorem C6_empty_token_is_omitted :
    sentKeysOf "unencrypted_credential_details"
        (UpdateDatabricksCredential (fixedClient (.ok nullIdEnvelope)).journaled 9 42
          zeroCredential ((), [])).2.2
      = [some ["catalog", "schema", "target_name", "threads"]] := by
  decide

/-- C6, amended: when `UpdateDatabricksCredential` sends its request, the body is
the JSON of the whole credential: an object with the ten members of
`DatabricksCredential`, whose `credential_details` has the members `fields` and
`field_order`, and whose `unencrypted_credential_details` has the members
`catalog`, `schema`, `target_name`, `threads`, whatever their values, and the
member `token` exactly when the token is not empty. -/
theorem C6_update_writes_whole_object {σ S : Type} (c : Client σ S)
    (projectId credentialId : Int) (databricksCredential : DatabricksCredential) (w : σ)
    (data : Json)
    (hdata : marshalCredential databricksCredential = .ok data)
    (hurl : c.urlError (c.HostURL ++ "/v3/accounts/" ++ toString c.AccountID ++ "/projects/"
        ++ toString projectId ++ "/credentials/" ++ toString credentialId ++ "/") = none) :
    (UpdateDatabricksCredential c.journaled projectId credentialId databricksCredential
        (w, [])).2.2.map Request.body = [some data]
    ∧ data.keys = ["id", "account_id", "project_id", "type", "state", "threads",
        "target_name", "adapter_id", "credential_details", "unencrypted_credential_details"]
    ∧ (∃ details, data.member "credential_details" = some details
        ∧ details.keys = ["fields", "field_order"])
    ∧ (∃ unencrypted, data.member "unencrypted_credential_details" = some unencrypted
        ∧ unencrypted.keys = ["catalog", "schema", "target_name", "threads"]
            ++ (if databricksCredential.UnencryptedCredentialDetails.Token = "" then []
                else ["token"])
        ∧ unencrypted.member "token"
            = (if databricksCredential.UnencryptedCredentialDetails.Token = "" then none
               else some (.str databricksCredential.UnencryptedCredentialDetails.Token.toText))) := by
  refine ⟨?_, ?_⟩
  · simp only [Update_eq, NewRequest, journaled_HostURL, journaled_AccountID,
      fmtD, hdata]
    rw [show c.journaled.urlError = c.urlError from rfl, hurl]
    simp [sendAndDecode_journaled]
  · unfold marshalCredential at hdata
    cases hd : encDetails databricksCredential.Credential_Details with
    | error e => rw [hd] at hdata; cases hdata
    | ok details =>
      rw [hd] at hdata
      cases hdata
      unfold encDetails at hd
      cases hf : encFields databricksCredential.Credential_Details.Fields with
      | error e => rw [hf] at hd; cases hd
      | ok fs =>
        rw [hf] at hd
        cases hd
        refine ⟨rfl, ⟨_, rfl, rfl⟩, ⟨_, rfl, ?_, ?_⟩⟩
        · simp only [encUnencrypted, Json.keys, List.map_append, List.map_cons, List.map_nil]
          split <;> rfl
        · simp only [encUnencrypted, Json.member]
          split <;> simp

/-- Witness of C6 (amended): a credential with the token "dapi", sent through a
client whose URLs all parse. -/
theorem C6_update_writes_whole_object_witness :
    marshalCredential plainTokenCredential = .ok plainTokenCredentialJson
    ∧ (fixedClient (.ok nullIdEnvelope)).urlError
        ((fixedClient (.ok nullIdEnvelope)).HostURL ++ "/v3/accounts/"
          ++ toString (fixedClient (.ok nullIdEnvelope)).AccountID ++ "/projects/"
          ++ toString (9 : Int) ++ "/credentials/" ++ toString (42 : Int) ++ "/") = none
    ∧ ((UpdateDatabricksCredential (fixedClient (.ok nullIdEnvelope)).journaled 9 42
          plainTokenCredential ((), [])).2.2.map Request.body = [some plainTokenCredentialJson]
      ∧ plainTokenCredentialJson.keys = ["id", "account_id", "project_id", "type", "state",
          "threads", "target_name", "adapter_id", "credential_details",
          "unencrypted_credential_details"]
      ∧ (∃ details, plainTokenCredentialJson.member "credential_details" = some details
          ∧ details.keys = ["fields", "field_order"])
      ∧ (∃ unencrypted,
          plainTokenCredentialJson.member "unencrypted_credential_details" = some unencrypted
          ∧ unencrypted.keys = ["catalog", "schema", "target_name", "threads"]
              ++ (if plainTokenCredential.UnencryptedCredentialDetails.Token = "" then []
                  else ["token"])
          ∧ unencrypted.member "token"
              = (if plainTokenCredential.UnencryptedCredentialDetails.Token = "" then none
                 else some (.str plainTokenCredential.UnencryptedCredentialDetails.Token.toText)))) :=
  ⟨rfl, rfl,
    C6_update_writes_whole_object (fixedClient (.ok nullIdEnvelope)) 9 42 plainTokenCredential ()
      plainTokenCredentialJson rfl rfl⟩

/-! ### What Get reads -/

theorem bitLenAux_le (fuel : Nat) : ∀ (n k : Nat), n < 2 ^ k → bitLenAux fuel n ≤ k := by
  induction fuel with
  | zero => intro n k _; simp [bitLenAux]
  | succ fuel ih =>
    intro n k h
    simp only [bitLenAux]
    split
    · omega
    · rename_i hn
      cases k with
      | zero => simp at h; omega
      | succ k =>
        have : n / 2 < 2 ^ k := by
          rw [Nat.div_lt_iff_lt_mul (by norm_num)]
          rw [pow_succ] at h
          exact h
        have := ih (n / 2) k this
        omega

theorem round_finite_of_small (neg : Bool) (a : Nat) (h : a < 2 ^ 64) :
    ∃ mant exp, Float64.round neg a 1 = .finite neg mant exp := by
  have hb : bitLen a ≤ 64 := bitLenAux_le a a 64 h
  have h1 : bitLen 1 = 1 := by decide
  unfold Float64.round roundAt
  simp only [h1]
  split
  · exact ⟨_, _, rfl⟩
  · split_ifs <;> first | exact ⟨_, _, rfl⟩ | (exfalso; omega)

theorem intValue_ofInt (n : Int) : JNumber.intValue (decide (n < 0)) n.natAbs = n := by
  unfold JNumber.intValue
  by_cases h : n < 0
  · rw [decide_eq_true h]
    simp only [↓reduceIte]
    omega
  · rw [decide_eq_false h]
    simp only [Bool.false_eq_true, ↓reduceIte]
    omega

theorem decInt_encInt (cur n : Int) (h : isInt64 n = true) : decInt cur (encInt n) = .ok n := by
  simp [decInt, encInt, JNumber.ofInt, intValue_ofInt, h]

theorem decIntPtr_encIntPtr (p : Option Int)
    (h : (match p with | none => true | some n => isInt64 n) = true) :
    decIntPtr none (encIntPtr p) = .ok p := by
  cases p with
  | none => rfl
  | some n =>
    have := decInt_encInt 0 n h
    simp only [encIntPtr, encInt] at this ⊢
    simp [decIntPtr, this]

theorem decString_toText (cur s : GoString) :
    decString cur (.str s.toText) = .ok s.toValidUTF8 := rfl

theorem decStringItems_strs (xs : List GoString) :
    ∀ cur : List GoString,
      decStringItems cur (xs.map (fun s => Json.str s.toText))
        = .ok (xs.map GoString.toValidUTF8) := by
  induction xs with
  | nil => intro cur; rfl
  | cons x xs ih => intro cur; simp [decStringItems, decString_toText, ih]

theorem decStrings_encStrings (o : Option (List GoString)) :
    decStrings none (encStrings o) = .ok (o.map (fun xs => xs.map GoString.toValidUTF8)) := by
  cases o with
  | none => rfl
  | some xs => simp [decStrings, encStrings, decStringItems_strs]

theorem floatOfInt_finite (n : Int) (h : isInt64 n = true) :
    ∃ neg mant exp, floatOfInt n = .finite neg mant exp := by
  have hn : n.natAbs < 2 ^ 64 := by
    simp [isInt64] at h
    omega
  obtain ⟨m, e, hme⟩ := round_finite_of_small (decide (n < 0)) n.natAbs hn
  exact ⟨_, m, e, by
    simpa [floatOfInt, JNumber.toFloat64, JNumber.ofInt, JNumber.fraction] using hme⟩

mutual
/-- A writable value is written, and what is written reads back as
`afterRoundTrip` of it and is nested as deep as the value. -/
theorem decAny_encAny : ∀ (v : GoAny), v.isWritable = true →
    ∃ j, encAny v = .ok j ∧ decAny j = .ok v.afterRoundTrip ∧ j.depth = v.depth
  | .nil, _ => ⟨_, rfl, rfl, rfl⟩
  | .bool _, _ => ⟨_, rfl, rfl, rfl⟩
  | .string _, _ => ⟨_, rfl, rfl, rfl⟩
  | .int n, h => by
    obtain ⟨neg, m, e, hf⟩ := floatOfInt_finite n h
    refine ⟨_, rfl, ?_, rfl⟩
    unfold floatOfInt at hf
    simp [decAny, GoAny.afterRoundTrip, floatOfInt, hf]
  | .float64 (.finite neg m e), h => by
    obtain ⟨n, h1, h2⟩ := toJNumber_reads_back neg m e h
    exact ⟨.num n, by simp [encAny, h1], by simp [decAny, h2, GoAny.afterRoundTrip], rfl⟩
  | .float64 (.inf _), h => by simp [GoAny.isWritable] at h
  | .float64 .nan, h => by simp [GoAny.isWritable] at h
  | .nilSlice, _ => ⟨_, rfl, rfl, rfl⟩
  | .slice items, h => by
    obtain ⟨js, h1, h2, h3⟩ := decAnyItems_encAnyItems items h
    exact ⟨.arr js, by simp [encAny, h1], by simp [decAny, h2, GoAny.afterRoundTrip],
      by simp [Json.depth, GoAny.depth, h3]⟩
  | .nilMap, _ => ⟨_, rfl, rfl, rfl⟩
  | .map entries, h => by
    simp only [GoAny.isWritable, Bool.and_eq_true] at h
    obtain ⟨ms, h1, h2, h3⟩ := decAnyMembers_encAnyEntries entries h.2
    exact ⟨.obj ms, by simp [encAny, h1], by simp [decAny, h2, GoAny.afterRoundTrip],
      by simp [Json.depth, GoAny.depth, h3]⟩
theorem decAnyItems_encAnyItems : ∀ (xs : List GoAny), allWritable xs = true →
    ∃ js, encAnyItems xs = .ok js ∧ decAnyItems js = .ok (afterRoundTripItems xs)
      ∧ depthItems js = depthOfItems xs
  | [], _ => ⟨[], rfl, rfl, rfl⟩
  | x :: xs, h => by
    simp only [allWritable, Bool.and_eq_true] at h
    obtain ⟨j, h1, h2, h5⟩ := decAny_encAny x h.1
    obtain ⟨js, h3, h4, h6⟩ := decAnyItems_encAnyItems xs h.2
    exact ⟨j :: js, by simp [encAnyItems, h1, h3],
      by simp [decAnyItems, h2, h4, afterRoundTripItems],
      by simp [depthItems, depthOfItems, h5, h6]⟩
theorem decAnyMembers_encAnyEntries : ∀ (es : List (GoString × GoAny)),
    allWritableEntries es = true →
    ∃ ms, encAnyEntries es = .ok ms
      ∧ (∀ acc, decAnyMembers ms acc = .ok (afterRoundTripEntries es acc))
      ∧ depthMembers ms = depthOfEntries es
  | [], _ => ⟨[], rfl, fun _ => rfl, rfl⟩
  | (k, v) :: es, h => by
    simp only [allWritableEntries, Bool.and_eq_true] at h
    obtain ⟨j, h1, h2, h5⟩ := decAny_encAny v h.1
    obtain ⟨ms, h3, h4, h6⟩ := decAnyMembers_encAnyEntries es h.2
    refine ⟨(k.toText, j) :: ms, by simp [encAnyEntries, h1, h3], ?_,
      by simp [depthMembers, depthOfEntries, h5, h6]⟩
    intro acc
    simp only [decAnyMembers, h2, afterRoundTripEntries]
    exact h4 _
end

theorem decMetadata_encMetadata (m : DatabricksCredentialFieldMetadata) :
    decMetadata zeroMetadata (encMetadata m)
      = .ok { m with
          Label := m.Label.toValidUTF8
          Description := m.Description.toValidUTF8
          Field_Type := m.Field_Type.toValidUTF8 } := by
  have f1 : foldName "label" = "label" := by decide
  have f2 : foldName "description" = "description" := by decide
  have f3 : foldName "field_type" = "field_type" := by decide
  have f4 : foldName "encrypt" = "encrypt" := by decide
  have f5 : foldName "overrideable" = "overrideable" := by decide
  have f6 : foldName "validation" = "validation" := by decide
  have f7 : foldName "required" = "required" := by decide
  simp [decMetadata, encMetadata, decStruct, decMembers, stepMetadata, f1, f2, f3, f4, f5, f6, f7,
    decString_toText, decBool, decValidation, encValidation, stepValidation, Except.map]

/-- A field after marshalling and unmarshalling. -/
theorem decField_encField (f : DatabricksCredentialField) (hp : f.Value.isWritable = true) :
    ∃ j, encField f = .ok j ∧ decField zeroField j = .ok f.afterRoundTrip
      ∧ j.depth = f.depth := by
  obtain ⟨jv, hv, hd, hdepth⟩ := decAny_encAny f.Value hp
  have f1 : foldName "metadata" = "metadata" := by decide
  have f2 : foldName "value" = "value" := by decide
  have hm := decMetadata_encMetadata f.Metadata
  refine ⟨.obj [("metadata", encMetadata f.Metadata), ("value", jv)], by simp [encField, hv], ?_,
    ?_⟩
  · simp [decField, decStruct, decMembers, stepField, f1, f2, zeroField, Except.map, hd, hm,
      DatabricksCredentialField.afterRoundTrip]
  · simp [Json.depth, depthMembers, encMetadata, encValidation, hdepth,
      DatabricksCredentialField.depth]

theorem decFieldEntries_encFieldEntries (es : List (GoString × DatabricksCredentialField))
    (hp : es.all (fun kv => kv.2.Value.isWritable) = true) :
    ∃ ms, encFieldEntries es = .ok ms
      ∧ (∀ acc, decFieldEntries ms acc = .ok (fieldsAfterRoundTrip es acc))
      ∧ depthMembers ms = fieldsDepth es := by
  induction es with
  | nil => exact ⟨[], rfl, fun _ => rfl, rfl⟩
  | cons kf es ih =>
    obtain ⟨k, f⟩ := kf
    simp only [List.all_cons, Bool.and_eq_true] at hp
    obtain ⟨j, h1, h2, h5⟩ := decField_encField f hp.1
    obtain ⟨ms, h3, h4, h6⟩ := ih hp.2
    refine ⟨(k.toText, j) :: ms, by simp [encFieldEntries, h1, h3], ?_,
      by simp [depthMembers, fieldsDepth, h5, h6]⟩
    intro acc
    simp only [decFieldEntries, h2, fieldsAfterRoundTrip]
    exact h4 _

theorem decFields_encFields (o : Option (List (GoString × DatabricksCredentialField)))
    (hp : (match o with
        | none => true
        | some es =>
          keysAscending (es.map Prod.fst) && es.all (fun kv => kv.2.Value.isWritable))
      = true) :
    ∃ j, encFields o = .ok j
      ∧ decFields none j = .ok (o.map (fun es => fieldsAfterRoundTrip es []))
      ∧ j.depth = fieldsMapDepth o := by
  cases o with
  | none => exact ⟨.null, rfl, rfl, rfl⟩
  | some es =>
    simp only [Bool.and_eq_true] at hp
    obtain ⟨ms, h1, h2, h3⟩ := decFieldEntries_encFieldEntries es hp.2
    exact ⟨.obj ms, by simp [encFields, h1], by simp [decFields, h2],
      by simp [Json.depth, fieldsMapDepth, h3]⟩

theorem depthItems_strs (xs : List GoString) :
    depthItems (xs.map (fun s => Json.str s.toText)) = 0 := by
  induction xs with
  | nil => rfl
  | cons x xs ih => simp [depthItems, Json.depth, ih]

theorem depth_encStrings (o : Option (List GoString)) :
    (encStrings o).depth = fieldOrderDepth o := by
  cases o with
  | none => rfl
  | some xs => simp [encStrings, Json.depth, depthItems_strs, fieldOrderDepth]

theorem decDetails_encDetails (d : DatabricksCredentialDetails)
    (hp : (match d.Fields with
        | none => true
        | some es =>
          keysAscending (es.map Prod.fst) && es.all (fun kv => kv.2.Value.isWritable))
      = true) :
    ∃ j, encDetails d = .ok j
      ∧ decDetails zeroDetails j
        = .ok { Fields := d.Fields.map (fun es => fieldsAfterRoundTrip es [])
                Field_Order := d.Field_Order.map (fun xs => xs.map GoString.toValidUTF8) }
      ∧ j.depth = max (fieldsMapDepth d.Fields) (fieldOrderDepth d.Field_Order) + 1 := by
  obtain ⟨fs, h1, h2, h4⟩ := decFields_encFields d.Fields hp
  have f1 : foldName "fields" = "fields" := by decide
  have f2 : foldName "field_order" = "field_order" := by decide
  have h3 := decStrings_encStrings d.Field_Order
  refine ⟨.obj [("fields", fs), ("field_order", encStrings d.Field_Order)],
    by simp [encDetails, h1], ?_, ?_⟩
  · simp [decDetails, decStruct, decMembers, stepDetails, f1, f2, zeroDetails, Except.map, h2, h3]
  · simp [Json.depth, depthMembers, h4, depth_encStrings]

theorem decUnencrypted_encUnencrypted (u : DatabricksUnencryptedCredentialDetails)
    (h : isInt64 u.Threads = true) :
    decUnencrypted zeroUnencrypted (encUnencrypted u)
      = .ok { u with
          Catalog := u.Catalog.toValidUTF8
          Schema := u.Schema.toValidUTF8
          TargetName := u.TargetName.toValidUTF8
          Token := u.Token.toValidUTF8 } := by
  have f1 : foldName "catalog" = "catalog" := by decide
  have f2 : foldName "schema" = "schema" := by decide
  have f3 : foldName "target_name" = "target_name" := by decide
  have f4 : foldName "threads" = "threads" := by decide
  have f5 : foldName "token" = "token" := by decide
  have hi := decInt_encInt 0 u.Threads h
  by_cases ht : u.Token = ""
  · obtain ⟨a, b, c, d, e⟩ := u
    simp only at ht
    subst ht
    have he : (GoString.ofText "").toValidUTF8 = GoString.mk [] := by decide
    simp [decUnencrypted, encUnencrypted, decStruct, decMembers, stepUnencrypted, f1, f2, f3, f4,
      zeroUnencrypted, Except.map, decString_toText, hi, he]
  · simp [decUnencrypted, encUnencrypted, decStruct, decMembers, stepUnencrypted, f1, f2, f3, f4,
      f5, zeroUnencrypted, Except.map, decString_toText, hi, ht]

theorem depth_encUnencrypted (u : DatabricksUnencryptedCredentialDetails) :
    (encUnencrypted u).depth = 1 := by
  by_cases ht : u.Token = ""
  · simp [encUnencrypted, ht, Json.depth, depthMembers, encInt]
  · simp [encUnencrypted, ht, Json.depth, depthMembers, encInt]

theorem depth_encIntPtr (p : Option Int) : (encIntPtr p).depth = 0 := by
  cases p <;> rfl

/-- A writable credential is written, with a text as deep as `depth` says. -/
theorem marshalCredential_ok (c : DatabricksCredential) (hp : c.isWritable = true) :
    ∃ j, marshalCredential c = .ok j ∧ decCredential zeroCredential j = .ok c.afterRoundTrip
      ∧ j.depth = c.depth := by
  simp only [DatabricksCredential.isWritable, Bool.and_eq_true] at hp
  obtain ⟨⟨⟨⟨⟨⟨⟨h1, h2⟩, h3⟩, h4⟩, h5⟩, h6⟩, h7⟩, h8⟩ := hp
  obtain ⟨details, hd, e8, hdepth⟩ := decDetails_encDetails c.Credential_Details h8
  have f1 : foldName "id" = "id" := by decide
  have f2 : foldName "account_id" = "account_id" := by decide
  have f3 : foldName "project_id" = "project_id" := by decide
  have f4 : foldName "type" = "type" := by decide
  have f5 : foldName "state" = "state" := by decide
  have f6 : foldName "threads" = "threads" := by decide
  have f7 : foldName "target_name" = "target_name" := by decide
  have f8 : foldName "adapter_id" = "adapter_id" := by decide
  have f9 : foldName "credential_details" = "credential_details" := by decide
  have f10 : foldName "unencrypted_credential_details" = "unencrypted_credential_details" := by
    decide
  have e1 := decIntPtr_encIntPtr c.ID h1
  have e2 := decInt_encInt 0 c.Account_Id h2
  have e3 := decInt_encInt 0 c.Project_Id h3
  have e4 := decInt_encInt 0 c.State h4
  have e5 := decInt_encInt 0 c.Threads h5
  have e6 := decInt_encInt 0 c.Adapter_Id h6
  have e7 := decUnencrypted_encUnencrypted c.UnencryptedCredentialDetails h7
  refine ⟨.obj [("id", encIntPtr c.ID), ("account_id", encInt c.Account_Id),
      ("project_id", encInt c.Project_Id), ("type", .str c.Type_.toText),
      ("state", encInt c.State), ("threads", encInt c.Threads),
      ("target_name", .str c.Target_Name.toText),
      ("adapter_id", encInt c.Adapter_Id), ("credential_details", details),
      ("unencrypted_credential_details", encUnencrypted c.UnencryptedCredentialDetails)],
    by simp only [marshalCredential, hd], ?_, ?_⟩
  · simp [decCredential, decStruct,
      decMembers, stepCredential, f1, f2, f3, f4, f5, f6, f7, f8, f9, f10, zeroCredential,
      Except.map, decString_toText, e1, e2, e3, e4, e5, e6, e7, e8,
      DatabricksCredential.afterRoundTrip]
  · have hobj : ∀ ms, (Json.obj ms).depth = depthMembers ms + 1 := fun ms => by
      simp only [Json.depth]
    have hstr : ∀ t, (Json.str t).depth = 0 := fun t => by simp only [Json.depth]
    have hint : ∀ n, (encInt n).depth = 0 := fun n => by simp only [encInt, Json.depth]
    simp only [hobj, depthMembers, hdepth, depth_encUnencrypted, depth_encIntPtr, hint, hstr,
      DatabricksCredential.depth]
    omega

/-- A writable credential whose text the scanner accepts comes back as
`afterRoundTrip` of it. -/
theorem roundTrip_eq (c : DatabricksCredential) (hp : c.isWritable = true)
    (hd : c.depth ≤ maxNestingDepth) : roundTrip c = .ok c.afterRoundTrip := by
  obtain ⟨j, h1, h2, h3⟩ := marshalCredential_ok c hp
  simp only [roundTrip, h1, Body.ofJson, h3, hd, if_true, unmarshalCredential, h2]

/-! ### What a round trip leaves as it is -/

theorem toValidUTF8_of_valid (s : GoString) (h : s.isValidUTF8 = true) : s.toValidUTF8 = s :=
  of_decide_eq_true h

theorem ltBytes_irrefl (a : List Byte) : ltBytes a a = false := by
  induction a with
  | nil => rfl
  | cons x xs ih => simp [ltBytes, ih]

theorem ltBytes_asymm (a : List Byte) :
    ∀ b : List Byte, ltBytes a b = true → ltBytes b a = false := by
  induction a with
  | nil =>
    intro b h
    cases b with
    | nil => rfl
    | cons y ys => rfl
  | cons x xs ih =>
    intro b h
    cases b with
    | nil => simp [ltBytes] at h
    | cons y ys =>
      simp only [ltBytes] at h ⊢
      by_cases h1 : x.val < y.val
      · have h2 : ¬ y.val < x.val := by omega
        simp [h2, h1]
      · by_cases h2 : y.val < x.val
        · simp [h1, h2] at h
        · simp only [h1, h2, if_false] at h ⊢
          exact ih ys h

theorem mapSet_append {α : Type} (k : GoString) (v : α) (acc : List (GoString × α))
    (h : ∀ k' ∈ acc.map Prod.fst, strLt k' k = true) : mapSet k v acc = acc ++ [(k, v)] := by
  induction acc with
  | nil => rfl
  | cons kv rest ih =>
    obtain ⟨k', v'⟩ := kv
    have hk : strLt k' k = true := h k' (by simp)
    have hne : k ≠ k' := by
      intro heq
      subst heq
      simp [strLt, ltBytes_irrefl] at hk
    have hlt : strLt k k' = false := ltBytes_asymm _ _ hk
    have ih' := ih (fun k2 hk2 => h k2 (by simp at hk2 ⊢; exact Or.inr hk2))
    simp [mapSet, hne, hlt, ih']

mutual
/-- A writable value without an `int` and with valid strings comes back as it
was. -/
theorem afterRoundTrip_stable (v : GoAny) (hs : v.isStable = true) (hw : v.isWritable = true) :
    v.afterRoundTrip = v := by
  cases v with
  | nil => rfl
  | bool b => rfl
  | string s =>
    simp only [GoAny.isStable] at hs
    simp only [GoAny.afterRoundTrip, toValidUTF8_of_valid s hs]
  | int n => simp [GoAny.isStable] at hs
  | float64 f => rfl
  | nilSlice => simp [GoAny.isStable] at hs
  | nilMap => simp [GoAny.isStable] at hs
  | slice items =>
    simp only [GoAny.isStable] at hs
    simp only [GoAny.isWritable] at hw
    simp only [GoAny.afterRoundTrip, afterRoundTripItems_stable items hs hw]
  | map entries =>
    simp only [GoAny.isStable] at hs
    simp only [GoAny.isWritable, Bool.and_eq_true] at hw
    have h := afterRoundTripEntries_stable entries hs hw.2 hw.1 [] (by simp)
    simp only [GoAny.afterRoundTrip, h, List.nil_append]
theorem afterRoundTripItems_stable (xs : List GoAny) (hs : allStable xs = true)
    (hw : allWritable xs = true) : afterRoundTripItems xs = xs := by
  cases xs with
  | nil => rfl
  | cons x xs =>
    simp only [allStable, Bool.and_eq_true] at hs
    simp only [allWritable, Bool.and_eq_true] at hw
    simp only [afterRoundTripItems, afterRoundTrip_stable x hs.1 hw.1,
      afterRoundTripItems_stable xs hs.2 hw.2]
theorem afterRoundTripEntries_stable (es : List (GoString × GoAny))
    (hs : allStableEntries es = true) (hw : allWritableEntries es = true)
    (ha : keysAscending (es.map Prod.fst) = true) (acc : List (GoString × GoAny))
    (hacc : ∀ k' ∈ acc.map Prod.fst, ∀ k ∈ es.map Prod.fst, strLt k' k = true) :
    afterRoundTripEntries es acc = acc ++ es := by
  cases es with
  | nil => simp [afterRoundTripEntries]
  | cons kv es =>
    obtain ⟨k, v⟩ := kv
    simp only [allStableEntries, Bool.and_eq_true] at hs
    simp only [allWritableEntries, Bool.and_eq_true] at hw
    simp only [List.map_cons, keysAscending, Bool.and_eq_true, List.all_eq_true,
      decide_eq_true_eq] at ha
    have h1 : mapSet k v acc = acc ++ [(k, v)] :=
      mapSet_append k v acc (fun k' hk' => hacc k' hk' k (by simp))
    have h2 := afterRoundTripEntries_stable es hs.2 hw.2 ha.2 (acc ++ [(k, v)]) (by
      intro k' hk' k2 hk2
      simp only [List.map_append, List.map_cons, List.map_nil, List.mem_append,
        List.mem_singleton] at hk'
      rcases hk' with hk' | hk'
      · exact hacc k' hk' k2 (by simp [hk2])
      · subst hk'
        exact ha.1 k2 hk2)
    simp only [afterRoundTripEntries, toValidUTF8_of_valid k hs.1.1,
      afterRoundTrip_stable v hs.1.2 hw.1, h1, h2, List.append_assoc, List.singleton_append]
end

theorem field_afterRoundTrip_stable (f : DatabricksCredentialField) (hs : f.isStable = true)
    (hw : f.Value.isWritable = true) : f.afterRoundTrip = f := by
  simp only [DatabricksCredentialField.isStable, Bool.and_eq_true] at hs
  obtain ⟨⟨⟨h1, h2⟩, h3⟩, h4⟩ := hs
  obtain ⟨m, v⟩ := f
  obtain ⟨a, b, c, d, e, g⟩ := m
  dsimp only at h1 h2 h3 h4 hw
  simp only [DatabricksCredentialField.afterRoundTrip, toValidUTF8_of_valid _ h1,
    toValidUTF8_of_valid _ h2, toValidUTF8_of_valid _ h3, afterRoundTrip_stable v h4 hw]

theorem fieldsAfterRoundTrip_stable (es : List (GoString × DatabricksCredentialField)) :
    ∀ (acc : List (GoString × DatabricksCredentialField)),
      es.all (fun kv => kv.1.isValidUTF8 && kv.2.isStable) = true →
      es.all (fun kv => kv.2.Value.isWritable) = true →
      keysAscending (es.map Prod.fst) = true →
      (∀ k' ∈ acc.map Prod.fst, ∀ k ∈ es.map Prod.fst, strLt k' k = true) →
      fieldsAfterRoundTrip es acc = acc ++ es := by
  induction es with
  | nil => intro acc _ _ _ _; simp [fieldsAfterRoundTrip]
  | cons kv es ih =>
    intro acc hs hw ha hacc
    obtain ⟨k, f⟩ := kv
    simp only [List.all_cons, Bool.and_eq_true] at hs hw
    simp only [List.map_cons, keysAscending, Bool.and_eq_true, List.all_eq_true,
      decide_eq_true_eq] at ha
    have h1 : mapSet k f acc = acc ++ [(k, f)] :=
      mapSet_append k f acc (fun k' hk' => hacc k' hk' k (by simp))
    have h2 := ih (acc ++ [(k, f)]) hs.2 hw.2 ha.2 (by
      intro k' hk' k2 hk2
      simp only [List.map_append, List.map_cons, List.map_nil, List.mem_append,
        List.mem_singleton] at hk'
      rcases hk' with hk' | hk'
      · exact hacc k' hk' k2 (by simp [hk2])
      · subst hk'
        exact ha.1 k2 hk2)
    simp only [fieldsAfterRoundTrip, toValidUTF8_of_valid k hs.1.1,
      field_afterRoundTrip_stable f hs.1.2 hw.1, h1, h2, List.append_assoc,
      List.singleton_append]

theorem map_toValidUTF8_of_valid (xs : List GoString) (h : xs.all GoString.isValidUTF8 = true) :
    xs.map GoString.toValidUTF8 = xs := by
  induction xs with
  | nil => rfl
  | cons x xs ih =>
    simp only [List.all_cons, Bool.and_eq_true] at h
    simp only [List.map_cons, toValidUTF8_of_valid x h.1, ih h.2]

/-- A writable credential without an `int` in a `Value` slot and with valid
strings comes back as it was. -/
theorem credential_afterRoundTrip_stable (c : DatabricksCredential) (hw : c.isWritable = true)
    (hs : c.isStable = true) : c.afterRoundTrip = c := by
  simp only [DatabricksCredential.isWritable, Bool.and_eq_true] at hw
  simp only [DatabricksCredential.isStable, Bool.and_eq_true] at hs
  obtain ⟨⟨⟨⟨⟨⟨⟨s1, s2⟩, s3⟩, s4⟩, s5⟩, s6⟩, s7⟩, s8⟩ := hs
  have hw8 := hw.2
  obtain ⟨id, a, p, t, st, th, tn, ad, ⟨fs, fo⟩, ⟨u1, u2, u3, u4, u5⟩⟩ := c
  dsimp only at s1 s2 s3 s4 s5 s6 s7 s8 hw8
  have hfo : fo.map (fun xs => xs.map GoString.toValidUTF8) = fo := by
    cases fo with
    | none => rfl
    | some xs => simp only [Option.map_some', map_toValidUTF8_of_valid xs s7]
  have hfs : fs.map (fun es => fieldsAfterRoundTrip es []) = fs := by
    cases fs with
    | none => rfl
    | some es =>
      simp only [Bool.and_eq_true] at hw8
      have h := fieldsAfterRoundTrip_stable es [] s8 hw8.2 hw8.1 (by simp)
      simp only [Option.map_some', h, List.nil_append]
  simp only [DatabricksCredential.afterRoundTrip, toValidUTF8_of_valid _ s1,
    toValidUTF8_of_valid _ s2, toValidUTF8_of_valid _ s3, toValidUTF8_of_valid _ s4,
    toValidUTF8_of_valid _ s5, toValidUTF8_of_valid _ s6, hfo, hfs]

theorem encAny_nestSlices (n : Nat) : encAny (nestSlices n .nil) = .ok (nestArrays n .null) := by
  induction n with
  | zero => rfl
  | succ n ih => simp only [nestSlices, encAny, encAnyItems, ih, nestArrays]

theorem depth_nestArrays (n : Nat) : (nestArrays n .null).depth = n := by
  induction n with
  | zero => rfl
  | succ n ih =>
    simp only [nestArrays, Json.depth, depthItems, ih]
    omega

/-- For a value inside so many slices that the text is nested deeper than the
scanner accepts, `json.Unmarshal` rejects what `json.Marshal` wrote. -/
theorem roundTrip_nestedCredential (n : Nat) (h : maxNestingDepth < n + 4) :
    roundTrip (nestedCredential n) = .error (.malformed "exceeded max depth") := by
  have hobj : ∀ ms, (Json.obj ms).depth = depthMembers ms + 1 := fun ms => by
    simp only [Json.depth]
  have hstr : ∀ t, (Json.str t).depth = 0 := fun t => by simp only [Json.depth]
  have hbool : ∀ b, (Json.bool b).depth = 0 := fun b => by simp only [Json.depth]
  have hnull : Json.null.depth = 0 := by simp only [Json.depth]
  have hint : ∀ n, (encInt n).depth = 0 := fun n => by simp only [encInt, Json.depth]
  simp only [roundTrip, marshalCredential, nestedCredential, zeroCredential, encDetails,
    encFields, encFieldEntries, encField, encAny_nestSlices, Body.ofJson, hobj, depthMembers,
    depth_nestArrays, depth_encUnencrypted, depth_encIntPtr, hint, hstr, hbool, hnull,
    depth_encStrings, fieldOrderDepth, encMetadata, encValidation]
  rw [if_neg (by omega)]
  rfl

/-- C5, counterexample: five credentials that do not come back from
marshalling and unmarshalling. A threads field holding the `int` 4 comes back
holding the `float64` 4; a type of the bytes `a`, `0xFF`, `b` comes back with
U+FFFD (the bytes `0xEF 0xBF 0xBD`) in place of `0xFF`; a nil slice as value
comes back as the nil interface; for a NaN as value `json.Marshal` fails; and
for a value inside 9997 slices `json.Unmarshal` rejects the text as too deep. -/
theorem C5_values_that_do_not_come_back :
    (roundTrip threadsCredential
        = .ok { threadsCredential with
            Credential_Details :=
              { Fields := some [("threads",
                  { Metadata := zeroMetadata,
                    Value := .float64 (.finite false (2 ^ 52) (-50)) })],
                Field_Order := some [] } }
      ∧ roundTrip threadsCredential ≠ .ok threadsCredential)
    ∧ (roundTrip rawTypeCredential
        = .ok { zeroCredential with
            Type_ := ⟨[byte 0x61, byte 0xEF, byte 0xBF, byte 0xBD, byte 0x62]⟩ }
      ∧ roundTrip rawTypeCredential ≠ .ok rawTypeCredential)
    ∧ (roundTrip nilSliceCredential
        = .ok { nilSliceCredential with
            Credential_Details :=
              { Fields := some [("threads", { Metadata := zeroMetadata, Value := .nil })],
                Field_Order := none } }
      ∧ roundTrip nilSliceCredential ≠ .ok nilSliceCredential)
    ∧ roundTrip nanCredential = .error unsupportedFloat
    ∧ roundTrip deepCredential = .error (.malformed "exceeded max depth") := by
  have h1 : roundTrip threadsCredential
      = .ok { threadsCredential with
          Credential_Details :=
            { Fields := some [("threads",
                { Metadata := zeroMetadata,
                  Value := .float64 (.finite false (2 ^ 52) (-50)) })],
              Field_Order := some [] } } := by
    rfl
  have h2 : roundTrip rawTypeCredential
      = .ok { zeroCredential with
          Type_ := ⟨[byte 0x61, byte 0xEF, byte 0xBF, byte 0xBD, byte 0x62]⟩ } := by
    rfl
  have h3 : roundTrip nilSliceCredential
      = .ok { nilSliceCredential with
          Credential_Details :=
            { Fields := some [("threads", { Metadata := zeroMetadata, Value := .nil })],
              Field_Order := none } } := by
    rfl
  have h5 : roundTrip deepCredential = .error (.malformed "exceeded max depth") :=
    roundTrip_nestedCredential 9997 (by decide)
  refine ⟨⟨h1, ?_⟩, ⟨h2, ?_⟩, ⟨h3, ?_⟩, rfl, h5⟩
  · rw [h1]
    simp [threadsCredential]
  · rw [h2]
    simp [rawTypeCredential, zeroCredential, byte]
  · rw [h3]
    simp [nilSliceCredential]

/-- C5, amended: a credential whose `Value`s hold no NaN and no infinity and
whose JSON text is nested at most 10000 deep comes back from `json.Marshal`
followed by `json.Unmarshal` without error and with every field as it was (the
`ID` pointer, the integers, the metadata, `Field_Order`, the unencrypted
details, nil-ness of map and slice), except that every string, also as a map
key, has each byte that is not valid UTF-8 replaced by U+FFFD, that an `int` in
a `Value` slot has become the `float64` nearest to it, and that a nil slice or
nil map in a `Value` slot has become the nil interface; so it comes back
identical when its strings are valid UTF-8 and no `Value` holds an `int`, a nil
slice or a nil map. -/
theorem C5_round_trip (c : DatabricksCredential) (hw : c.isWritable = true)
    (hd : c.depth ≤ maxNestingDepth) :
    roundTrip c = .ok c.afterRoundTrip ∧ (c.isStable = true → roundTrip c = .ok c) := by
  have h := roundTrip_eq c hw hd
  refine ⟨h, fun hs => ?_⟩
  rw [h, credential_afterRoundTrip_stable c hw hs]

/-- Witness of C5 (amended): a credential with an id, a type, a field order, an
unencrypted token, and values that are a map, a list, a `float64` and a string
comes back identical. -/
theorem C5_round_trip_witness :
    tokenCredential.isWritable = true
    ∧ tokenCredential.depth ≤ maxNestingDepth
    ∧ (roundTrip tokenCredential = .ok tokenCredential.afterRoundTrip
      ∧ (tokenCredential.isStable = true → roundTrip tokenCredential = .ok tokenCredential)) :=
  ⟨by decide, by decide, C5_round_trip tokenCredential (by decide) (by decide)⟩

end DbtCloud
